import Mathlib

/-!
# WebSocket echo server: frame codec, handshake and session loop

A shallow embedding of `server.go`.  Bytes are natural numbers (a Go `byte` is a
value below 256; conversions `byte(x)` are written `x % 256`), Go strings and byte
slices are lists of bytes, and a `net.Conn` is an explicit state that is threaded
through every operation.
-/

namespace WebSocket

set_option autoImplicit false

/-! ## Errors, log lines and connections -/

/-- The Go `error` values that can occur in `server.go`. -/
inductive Err where
  /-- The value `io.EOF`: the stream ended before any requested byte was read. -/
  | eof
  /-- The value `io.ErrUnexpectedEOF`: the stream ended in the middle of a read. -/
  | unexpectedEOF
  /-- A read or write on a connection that was closed locally. -/
  | netClosed
  /-- The error reported by a failing `conn.Write`. -/
  | writeFailed
  /-- The value of `fmt.Errorf(msg)`. -/
  | errorf (msg : String)
deriving DecidableEq, Repr

deriving instance DecidableEq for Except

/-- The text returned by the method `Error()` of an error value.  For the errors of
the `net` package only the fixed part of the text is kept; the handler compares the
text with `connection closed`, which none of them is. -/
def Err.Error : Err → String
  | .eof => "EOF"
  | .unexpectedEOF => "unexpected EOF"
  | .netClosed => "use of closed network connection"
  | .writeFailed => "write failed"
  | .errorf msg => msg

/-- Errors that come from the byte stream itself (a short read or a failed I/O call),
as opposed to the errors made with `fmt.Errorf` by the codec. -/
def Err.isTransport : Err → Bool
  | .errorf _ => false
  | _ => true

/-- The lines the connection handler prints with `log.Println`. -/
inductive LogLine where
  | notWebSocket
  | errorWritingResponse (e : Err)
  | established
  | connectionClosed
  | errorReadingFrame (e : Err)
  | received (message : List Nat)
  | errorWritingFrame (e : Err)
deriving DecidableEq, Repr

/-- State of one accepted connection as seen by its handler.

* `input`: the bytes the peer has sent and that were not read yet; the stream is
  finite, so a read past its end reports end of file;
* `output`: the bytes handed to successful `Write` calls, in order;
* `closes`: how many times `Close` was called;
* `writeErrs`: the outcome of the coming `Write` calls (`true`: that call fails and
  sends nothing); once the list is used up every write succeeds;
* `log`: the lines printed by the handler, oldest first. -/
structure Conn where
  input : List Nat
  output : List Nat
  closes : Nat
  writeErrs : List Bool
  log : List LogLine
deriving DecidableEq, Repr

/-- A connection on which nothing happened yet and whose writes all succeed. -/
def Conn.fresh (input : List Nat) : Conn :=
  { input := input, output := [], closes := 0, writeErrs := [], log := [] }

/-- The method `conn.Close()`. -/
def Conn.close (c : Conn) : Conn :=
  { c with closes := c.closes + 1 }

/-- The call `log.Println(...)`. -/
def Conn.println (c : Conn) (l : LogLine) : Conn :=
  { c with log := c.log ++ [l] }

/-- The method `conn.Write(bs)`: the returned error and the connection afterwards. -/
def Conn.write (c : Conn) (bs : List Nat) : Option Err × Conn :=
  if 0 < c.closes then (some .netClosed, c)
  else
    match c.writeErrs with
    | true :: rest => (some .writeFailed, { c with writeErrs := rest })
    | false :: rest => (none, { c with output := c.output ++ bs, writeErrs := rest })
    | [] => (none, { c with output := c.output ++ bs })

/-- The call `io.ReadFull(conn, buf)` with `len(buf) = n`: either the `n` bytes read
into `buf`, or the error.  With `n = 0` nothing is read and the call succeeds; a
stream that ends before `n` bytes gives `io.EOF` when it was already empty and
`io.ErrUnexpectedEOF` otherwise. -/
def readFull (c : Conn) (n : Nat) : Except Err (List Nat) × Conn :=
  if n = 0 then (.ok [], c)
  else if 0 < c.closes then (.error .netClosed, c)
  else if n ≤ c.input.length then (.ok (c.input.take n), { c with input := c.input.drop n })
  else if c.input = [] then (.error .eof, c)
  else (.error .unexpectedEOF, { c with input := [] })

/-! ## Frame codec -/

/-- The unmasking loop `for i := ...; i < payloadLen; i++ { payload[i] ^= maskingKey[i%4] }`,
started at index `i`. -/
def unmaskFrom (maskingKey : List Nat) : Nat → List Nat → List Nat
  | _, [] => []
  | i, b :: payload => (b ^^^ maskingKey.getD (i % 4) 0) :: unmaskFrom maskingKey (i + 1) payload

/-- The unmasking loop of `readWebSocketFrame` over the whole payload. -/
def unmask (maskingKey payload : List Nat) : List Nat :=
  unmaskFrom maskingKey 0 payload

/-- The function `readWebSocketFrame`: `.error e` stands for `return nil, e`. -/
def readWebSocketFrame (conn : Conn) : Except Err (List Nat) × Conn :=
  match readFull conn 2 with
  | (.error err, c1) => (.error err, c1)
  | (.ok header, c1) =>
    let opcode := header.getD 0 0 &&& 0x0F
    let masked := (header.getD 1 0 &&& 0x80) != 0
    let payloadLen := header.getD 1 0 &&& 0x7F
    let lenStep : Except Err Nat × Conn :=
      if payloadLen == 126 then
        match readFull c1 2 with
        | (.error err, c2) => (.error err, c2)
        | (.ok extended, c2) => (.ok (extended.getD 0 0 <<< 8 ||| extended.getD 1 0), c2)
      else (.ok payloadLen, c1)
    match lenStep with
    | (.error err, c2) => (.error err, c2)
    | (.ok payloadLen, c2) =>
      let keyStep : Except Err (List Nat) × Conn :=
        if masked then readFull c2 4 else (.ok [0, 0, 0, 0], c2)
      match keyStep with
      | (.error err, c3) => (.error err, c3)
      | (.ok maskingKey, c3) =>
        match readFull c3 payloadLen with
        | (.error err, c4) => (.error err, c4)
        | (.ok payload, c4) =>
          let payload := if masked then unmask maskingKey payload else payload
          if opcode == 0x8 then (.error (.errorf "connection closed"), c4.close)
          else (.ok payload, c4)

/-- The second half of `readWebSocketFrame` (masking key, payload, unmasking, opcode
test) as a function of the values taken from the header.  It is used to reason about
`readWebSocketFrame` stage by stage, see `readWebSocketFrame_stages`. -/
def readPayload (opcode : Nat) (masked : Bool) (payloadLen : Nat) (c2 : Conn) :
    Except Err (List Nat) × Conn :=
  let keyStep : Except Err (List Nat) × Conn :=
    if masked then readFull c2 4 else (.ok [0, 0, 0, 0], c2)
  match keyStep with
  | (.error err, c3) => (.error err, c3)
  | (.ok maskingKey, c3) =>
    match readFull c3 payloadLen with
    | (.error err, c4) => (.error err, c4)
    | (.ok payload, c4) =>
      let payload := if masked then unmask maskingKey payload else payload
      if opcode == 0x8 then (.error (.errorf "connection closed"), c4.close)
      else (.ok payload, c4)

/-- The function `writeWebSocketFrame`: the returned error and the connection
afterwards. -/
def writeWebSocketFrame (conn : Conn) (message : List Nat) : Option Err × Conn :=
  let frame := [0x81]
  let length := message.length
  if length ≤ 125 then
    conn.write (frame ++ [length % 256] ++ message)
  else if length ≤ 65535 then
    conn.write (frame ++ [126, (length >>> 8) % 256, (length &&& 0xFF) % 256] ++ message)
  else
    (some (.errorf "message too long"), conn)

/-! ## Go strings -/

/-- The bytes of an ASCII string literal of the source. -/
def str (s : String) : List Nat :=
  s.toList.map Char.toNat

/-- First occurrence of the non-empty separator `sep` in `s` (as found by
`strings.Index`): the bytes before it and the bytes after it. -/
def cut (sep : List Nat) : List Nat → Option (List Nat × List Nat)
  | [] => none
  | b :: s =>
    if sep.isPrefixOf (b :: s) then some ([], (b :: s).drop sep.length)
    else
      match cut sep s with
      | none => none
      | some (before, after) => some (b :: before, after)

/-- The loop of `strings.Split`: cut at each occurrence of `sep` in turn.  The first
argument bounds the number of cuts. -/
def splitAux (sep : List Nat) : Nat → List Nat → List (List Nat)
  | 0, s => [s]
  | n + 1, s =>
    match cut sep s with
    | none => [s]
    | some (before, after) => before :: splitAux sep n after

/-- The call `strings.Split(s, sep)` for a non-empty `sep`; a string of `n` bytes
holds at most `n` occurrences of `sep`. -/
def split (s sep : List Nat) : List (List Nat) :=
  splitAux sep s.length s

/-- The call `strings.SplitN(s, sep, 2)` for a non-empty `sep`. -/
def splitN2 (s sep : List Nat) : List (List Nat) :=
  match cut sep s with
  | none => [s]
  | some (before, after) => [before, after]

/-! ## Header map -/

/-- A Go `map[string]string`, newest binding first. -/
abbrev Headers := List (List Nat × List Nat)

/-- The assignment `headers[name] = value`. -/
def Headers.set (headers : Headers) (name value : List Nat) : Headers :=
  (name, value) :: headers

/-- The lookup `headers[name]`, which is the empty string for an absent name. -/
def Headers.get (headers : Headers) (name : List Nat) : List Nat :=
  match List.lookup name headers with
  | some value => value
  | none => []

/-- The header parsing loop of the connection handler. -/
def parseHeaders (block : List Nat) : Headers :=
  (split block (str "\r\n")).foldl
    (fun headers line =>
      match splitN2 line (str ": ") with
      | [name, value] => headers.set name value
      | _ => headers)
    []

/-- The body of the header parsing loop: what one line does to the map. -/
def headerStep (headers : Headers) (line : List Nat) : Headers :=
  match splitN2 line (str ": ") with
  | [name, value] => headers.set name value
  | _ => headers

/-- The header parsing loop run over given lines; `parseHeaders` runs it over the
lines of the request block, see `parseHeaders_eq`. -/
def headersOfLines (lines : List (List Nat)) : Headers :=
  lines.foldl headerStep []

/-! ## SHA-1 and base64 (Go packages `crypto/sha1` and `encoding/base64`) -/

/-- Rotation to the left of a 32-bit word. -/
def rotl32 (x n : Nat) : Nat :=
  ((x <<< n) ||| (x >>> (32 - n))) % 2 ^ 32

/-- The big-endian 32-bit words of a byte sequence. -/
def wordsOf : List Nat → List Nat
  | a :: b :: c :: d :: rest => (a <<< 24 ||| b <<< 16 ||| c <<< 8 ||| d) :: wordsOf rest
  | _ => []

/-- The four big-endian bytes of a 32-bit word. -/
def bytesOfWord (w : Nat) : List Nat :=
  [(w >>> 24) % 256, (w >>> 16) % 256, (w >>> 8) % 256, w % 256]

/-- SHA-1 padding: a one bit, zeros up to 56 modulo 64, the bit length on 8 bytes. -/
def sha1Pad (msg : List Nat) : List Nat :=
  msg ++ [0x80] ++ List.replicate ((119 - msg.length % 64) % 64) 0
    ++ bytesOfWord ((8 * msg.length) >>> 32) ++ bytesOfWord (8 * msg.length)

/-- Message schedule: extend the words `w` by `n` more words. -/
def sha1Schedule : Nat → List Nat → List Nat
  | 0, w => w
  | n + 1, w =>
    let i := w.length
    sha1Schedule n
      (w ++ [rotl32 (w.getD (i - 3) 0 ^^^ w.getD (i - 8) 0 ^^^ w.getD (i - 14) 0
        ^^^ w.getD (i - 16) 0) 1])

/-- The five working words of SHA-1. -/
structure Sha1State where
  a : Nat
  b : Nat
  c : Nat
  d : Nat
  e : Nat
deriving DecidableEq, Repr

/-- Initial hash value of SHA-1. -/
def sha1Init : Sha1State :=
  { a := 0x67452301, b := 0xEFCDAB89, c := 0x98BADCFE, d := 0x10325476, e := 0xC3D2E1F0 }

/-- Round `i` of the compression function with schedule word `w`. -/
def sha1Round (s : Sha1State) (i w : Nat) : Sha1State :=
  let fk : Nat × Nat :=
    if i < 20 then ((s.b &&& s.c) ||| ((s.b ^^^ 0xFFFFFFFF) &&& s.d), 0x5A827999)
    else if i < 40 then (s.b ^^^ s.c ^^^ s.d, 0x6ED9EBA1)
    else if i < 60 then ((s.b &&& s.c) ||| (s.b &&& s.d) ||| (s.c &&& s.d), 0x8F1BBCDC)
    else (s.b ^^^ s.c ^^^ s.d, 0xCA62C1D6)
  { a := (rotl32 s.a 5 + fk.1 + s.e + fk.2 + w) % 2 ^ 32
    b := s.a
    c := rotl32 s.b 30
    d := s.c
    e := s.d }

/-- The rounds of one block, from round `i` on, over the remaining schedule words. -/
def sha1Rounds (s : Sha1State) : Nat → List Nat → Sha1State
  | _, [] => s
  | i, w :: ws => sha1Rounds (sha1Round s i w) (i + 1) ws

/-- Compression of one 64-byte block into the hash value `h`. -/
def sha1Block (h : Sha1State) (block : List Nat) : Sha1State :=
  let s := sha1Rounds h 0 (sha1Schedule 64 (wordsOf block))
  { a := (h.a + s.a) % 2 ^ 32
    b := (h.b + s.b) % 2 ^ 32
    c := (h.c + s.c) % 2 ^ 32
    d := (h.d + s.d) % 2 ^ 32
    e := (h.e + s.e) % 2 ^ 32 }

/-- The SHA-1 digest (20 bytes) of a byte sequence. -/
def sha1 (msg : List Nat) : List Nat :=
  let padded := sha1Pad msg
  let h := (List.range (padded.length / 64)).foldl
    (fun h i => sha1Block h ((padded.drop (64 * i)).take 64)) sha1Init
  bytesOfWord h.a ++ bytesOfWord h.b ++ bytesOfWord h.c ++ bytesOfWord h.d ++ bytesOfWord h.e

/-- The alphabet of the standard base64 encoding. -/
def base64Alphabet : List Nat :=
  str "ABCDEFGHIJKLMNOPQRSTUVWXYZabcdefghijklmnopqrstuvwxyz0123456789+/"

/-- The base64 character of a 6-bit value. -/
def base64Char (n : Nat) : Nat :=
  base64Alphabet.getD n 0

/-- The call `base64.StdEncoding.EncodeToString`. -/
def base64 : List Nat → List Nat
  | a :: b :: c :: rest =>
    [base64Char (a >>> 2), base64Char (((a &&& 3) <<< 4) ||| (b >>> 4)),
      base64Char (((b &&& 15) <<< 2) ||| (c >>> 6)), base64Char (c &&& 63)] ++ base64 rest
  | [a, b] =>
    [base64Char (a >>> 2), base64Char (((a &&& 3) <<< 4) ||| (b >>> 4)),
      base64Char ((b &&& 15) <<< 2), 61]
  | [a] => [base64Char (a >>> 2), base64Char ((a &&& 3) <<< 4), 61, 61]
  | [] => []

/-! ## Connection handler -/

/-- The accept key computed by the handler from the client key. -/
def acceptKey (key : List Nat) : List Nat :=
  base64 (sha1 (key ++ str "258EAFA5-E914-47DA-95CA-C5AB0DC85B11"))

/-- The response built with `fmt.Sprintf` from the accept key: the format string with
the key in the place of `%s`. -/
def response (acceptKey : List Nat) : List Nat :=
  str "HTTP/1.1 101 Switching Protocols\r\n"
    ++ str "Upgrade: websocket\r\n"
    ++ str "Connection: Upgrade\r\n"
    ++ str "Sec-WebSocket-Accept: " ++ acceptKey ++ str "\r\n\r\n"

/-- The literal answer to a request without key. -/
def badRequest : List Nat :=
  str "HTTP/1.1 400 Bad Request\r\n\r\n"

/-- The frame loop of the handler.  The first argument bounds the number of
iterations; `none` means that the bound was reached. -/
def frameLoop : Nat → Conn → Option Conn
  | 0, _ => none
  | fuel + 1, conn =>
    match readWebSocketFrame conn with
    | (.error err, c1) =>
      if err.Error == "connection closed" then some (c1.println .connectionClosed)
      else some (c1.println (.errorReadingFrame err))
    | (.ok message, c1) =>
      let c2 := c1.println (.received message)
      match writeWebSocketFrame c2 (message ++ str " (echo)") with
      | (some err, c3) => some (c3.println (.errorWritingFrame err))
      | (none, c3) => frameLoop fuel c3

/-- The body of the connection handler, without the deferred `conn.Close()`.
The outcome `recv` of the single `conn.Read(buf)` call is given: either the error, or
the bytes `buf[:data]` received; `conn.input` is the stream that follows them.
Every frame read consumes at least two bytes, so the loop runs at most
`conn.input.length + 1` times. -/
def handlerBody (conn : Conn) (recv : Except Err (List Nat)) : Option Conn :=
  match recv with
  | .error _ => some conn
  | .ok block =>
    let headers := parseHeaders block
    if headers.get (str "Upgrade") != str "websocket" then
      some (conn.println .notWebSocket)
    else
      let key := headers.get (str "Sec-WebSocket-Key")
      if key == [] then
        some (conn.write badRequest).2.close
      else
        match conn.write (response (acceptKey key)) with
        | (some err, c1) => some (c1.println (.errorWritingResponse err)).close
        | (none, c1) =>
          let c2 := c1.println .established
          frameLoop (c2.input.length + 1) c2

/-- The connection handler: the body, then the deferred `conn.Close()`. -/
def handleConn (conn : Conn) (recv : Except Err (List Nat)) : Option Conn :=
  (handlerBody conn recv).map Conn.close


/-! ## Wire format of a frame, as the specification describes it -/

/-- Declared payload length of a frame whose second byte is `b1` and whose extended
length bytes are `ext`: the 7-bit field, or the 16-bit big-endian value of `ext` when
the field is 126. -/
def declaredLen (b1 : Nat) (ext : List Nat) : Nat :=
  if b1 % 128 = 126 then ext.getD 0 0 * 256 + ext.getD 1 0 else b1 % 128

/-- The parts `ext`, `key`, `payload` that follow a second header byte `b1` make a
complete frame: two extended length bytes exactly when the 7-bit field is 126, four
key bytes exactly when the mask bit is set, and as many payload bytes as declared. -/
def CompleteFrame (b1 : Nat) (ext key payload : List Nat) : Prop :=
  b1 < 256 ∧ (∀ e ∈ ext, e < 256) ∧
    ext.length = (if b1 % 128 = 126 then 2 else 0) ∧
    key.length = (if 128 ≤ b1 then 4 else 0) ∧
    payload.length = declaredLen b1 ext

instance (b1 : Nat) (ext key payload : List Nat) : Decidable (CompleteFrame b1 ext key payload) := by
  unfold CompleteFrame
  infer_instance

/-- What a client does to a frame before sending it: set the mask bit of the second
byte, insert the masking key `k` after the length bytes, and XOR payload byte `i`
with `k[i mod 4]`. -/
def toClientFrame (k : List Nat) : List Nat → List Nat
  | b0 :: b1 :: body =>
    let n := if b1 &&& 0x7F = 126 then 2 else 0
    b0 :: (b1 ||| 0x80) :: (body.take n ++ k ++ unmask k (body.drop n))
  | short => short

/-- The frame that the specification prescribes for a payload of at most 65535 bytes:
first byte `0x81`, then the length (inline up to 125, else 126 and two big-endian
bytes), then the payload. -/
def encode (m : List Nat) : List Nat :=
  (if m.length ≤ 125 then [0x81, m.length]
    else [0x81, 126, m.length / 256, m.length % 256]) ++ m

/-- A frame on the wire, by its parts: the two header bytes, the extended length
bytes, the masking key and the payload bytes as they are sent. -/
structure Frame where
  b0 : Nat
  b1 : Nat
  ext : List Nat
  key : List Nat
  payload : List Nat
deriving DecidableEq, Repr

/-- The bytes of a frame in stream order. -/
def Frame.wire (f : Frame) : List Nat :=
  f.b0 :: f.b1 :: (f.ext ++ f.key ++ f.payload)

/-- The parts of the frame fit together, see `CompleteFrame`. -/
def Frame.Complete (f : Frame) : Prop :=
  CompleteFrame f.b1 f.ext f.key f.payload

instance (f : Frame) : Decidable f.Complete := by
  unfold Frame.Complete
  infer_instance

/-- The payload that the frame carries: the payload bytes, unmasked with the key when
the mask bit is set. -/
def Frame.message (f : Frame) : List Nat :=
  if 128 ≤ f.b1 then unmask f.key f.payload else f.payload

/-- The stream made of the given frames, one after the other. -/
def wireOf : List Frame → List Nat
  | [] => []
  | f :: fs => f.wire ++ wireOf fs

/-- The echo replies to the given frames, in the same order: for each frame the
encoding of its payload followed by the suffix ` (echo)`. -/
def repliesTo : List Frame → List Nat
  | [] => []
  | f :: fs => encode (f.message ++ str " (echo)") ++ repliesTo fs

/-! ## Sample values -/

/-- A well-formed upgrade request: the request line, `Upgrade: websocket` and the key
of the protocol's test vector. -/
def sampleRequest : List Nat :=
  str "GET /chat HTTP/1.1\r\nHost: example.com\r\nUpgrade: websocket\r\nConnection: Upgrade\r\nSec-WebSocket-Key: dGhlIHNhbXBsZSBub25jZQ==\r\n\r\n"

/-- An upgrade request without `Sec-WebSocket-Key`. -/
def keylessRequest : List Nat :=
  str "GET /chat HTTP/1.1\r\nHost: example.com\r\nUpgrade: websocket\r\n\r\n"

/-- The masked text frame with payload `hi` and key `[0, 0, 0, 0]`. -/
def hiFrame : Frame :=
  { b0 := 0x81, b1 := 0x82, ext := [], key := [0, 0, 0, 0], payload := [104, 105] }

/-- A masked close frame without payload. -/
def byeFrame : Frame :=
  { b0 := 0x88, b1 := 0x80, ext := [], key := [1, 2, 3, 4], payload := [] }

/-- An unmasked text frame with a payload of 65529 bytes. -/
def longFrame : Frame :=
  { b0 := 0x81, b1 := 126, ext := [255, 249], key := [], payload := List.replicate 65529 0 }

/-- A request with the header `A` on two lines and a value that holds a colon, a
blank after it and a trailing blank. -/
def repeatedRequest : List Nat :=
  str "GET / HTTP/1.1\r\nA: x\r\nB: b: c \r\nA: y\r\n\r\n"

/-- The sample request with the upgrade header name in lower case. -/
def lowerNameRequest : List Nat :=
  str "GET /chat HTTP/1.1\r\nupgrade: websocket\r\nSec-WebSocket-Key: dGhlIHNhbXBsZSBub25jZQ==\r\n\r\n"

/-- The sample request with the upgrade header value in mixed case. -/
def mixedValueRequest : List Nat :=
  str "GET /chat HTTP/1.1\r\nUpgrade: WebSocket\r\nSec-WebSocket-Key: dGhlIHNhbXBsZSBub25jZQ==\r\n\r\n"

/-- The request block made of the given lines: the lines with CR LF between them. -/
def joinLines : List (List Nat) → List Nat
  | [] => []
  | [l] => l
  | l :: l1 :: ls => l ++ str "\r\n" ++ joinLines (l1 :: ls)

/-! ## Reading from a connection -/

theorem Conn.eta_input (c : Conn) (rest : List Nat) (h : c.input = rest) :
    { c with input := rest } = c := by
  cases c
  simp_all

theorem readFull_ok (c : Conn) (xs rest : List Nat) (hopen : c.closes = 0)
    (hin : c.input = xs ++ rest) :
    readFull c xs.length = (.ok xs, { c with input := rest }) := by
  unfold readFull
  by_cases h0 : xs.length = 0
  · have hxs : xs = [] := List.length_eq_zero.mp h0
    subst hxs
    simp at hin
    simp [Conn.eta_input c rest hin]
  · simp [h0, hopen, hin]

theorem readFull_short (c : Conn) (n : Nat) (hopen : c.closes = 0)
    (hlt : c.input.length < n) :
    ∃ e c1, readFull c n = (.error e, c1) ∧ e.isTransport = true ∧ c1.closes = 0 := by
  unfold readFull
  have h0 : n ≠ 0 := by omega
  have h1 : ¬ n ≤ c.input.length := by omega
  by_cases he : c.input = []
  · exact ⟨.eof, c, by simp [h0, hopen, h1, he], rfl, hopen⟩
  · exact ⟨.unexpectedEOF, { c with input := [] }, by simp [h0, hopen, h1, he], rfl, hopen⟩

/-! ## Bit operations on bytes -/

theorem and_0x7F (b : Nat) : b &&& 0x7F = b % 128 :=
  Nat.and_pow_two_sub_one_eq_mod b 7

theorem and_0x0F (b : Nat) : b &&& 0x0F = b % 16 :=
  Nat.and_pow_two_sub_one_eq_mod b 4

theorem and_0xFF (b : Nat) : b &&& 0xFF = b % 256 :=
  Nat.and_pow_two_sub_one_eq_mod b 8

theorem and_0x80_ne_zero (b : Nat) (hb : b < 256) : ((b &&& 0x80) != 0) = decide (128 ≤ b) := by
  revert b
  decide!

theorem shl8_or (a b : Nat) (hb : b < 256) : a <<< 8 ||| b = a * 256 + b := by
  have h := Nat.mul_add_lt_is_or (i := 8) (b := b) (by simpa using hb) a
  rw [Nat.shiftLeft_eq]
  simp only [Nat.reducePow] at h ⊢
  rw [Nat.mul_comm a 256, ← h]


/-! ## Decoding a complete frame -/

theorem read_complete (c : Conn) (b0 b1 : Nat) (ext key payload rest : List Nat)
    (hopen : c.closes = 0)
    (hin : c.input = b0 :: b1 :: (ext ++ key ++ payload ++ rest))
    (hframe : CompleteFrame b1 ext key payload) :
    readWebSocketFrame c =
      if b0 % 16 = 8 then
        (.error (.errorf "connection closed"), { c with input := rest, closes := 1 })
      else
        (.ok (if 128 ≤ b1 then unmask key payload else payload), { c with input := rest }) := by
  obtain ⟨hb1, hextb, hext, hkey, hlen⟩ := hframe
  obtain ⟨inp, out, cl, we, lg⟩ := c
  simp only at hopen hin
  subst hopen hin
  have h1 := readFull_ok ⟨b0 :: b1 :: (ext ++ key ++ payload ++ rest), out, 0, we, lg⟩ [b0, b1]
    (ext ++ (key ++ (payload ++ rest))) rfl (by simp)
  have h2 := readFull_ok ⟨ext ++ (key ++ (payload ++ rest)), out, 0, we, lg⟩ ext
    (key ++ (payload ++ rest)) rfl rfl
  have h3 := readFull_ok ⟨key ++ (payload ++ rest), out, 0, we, lg⟩ key (payload ++ rest) rfl rfl
  have h4 := readFull_ok ⟨payload ++ rest, out, 0, we, lg⟩ payload rest rfl rfl
  simp only [List.length_cons, List.length_nil, Nat.zero_add, Nat.reduceAdd] at h1
  unfold readWebSocketFrame
  rw [h1]
  simp only [List.getD_cons_zero, List.getD_cons_succ, and_0x7F, and_0x0F,
    and_0x80_ne_zero b1 hb1, beq_iff_eq]
  by_cases h126 : b1 % 128 = 126
  · rw [if_pos h126] at hext
    obtain ⟨e0, e1, rfl⟩ := List.length_eq_two.mp hext
    have he1 : e1 < 256 := hextb e1 (by simp)
    rw [declaredLen, if_pos h126] at hlen
    simp only [List.getD_cons_zero, List.getD_cons_succ] at hlen
    simp only [List.length_cons, List.length_nil, Nat.zero_add, Nat.reduceAdd] at h2
    simp only [if_pos h126, h2, List.getD_cons_zero, List.getD_cons_succ, shl8_or e0 e1 he1,
      ← hlen]
    by_cases hm : 128 ≤ b1
    · rw [if_pos hm] at hkey
      rw [hkey] at h3
      simp [hm, h3, h4, Conn.close]
    · rw [if_neg hm] at hkey
      have hk : key = [] := List.length_eq_zero.mp hkey
      subst hk
      simp [hm, h4, Conn.close]
  · rw [if_neg h126] at hext
    have he : ext = [] := List.length_eq_zero.mp hext
    subst he
    rw [declaredLen, if_neg h126] at hlen
    simp only [if_neg h126]
    simp only [← hlen, List.nil_append]
    by_cases hm : 128 ≤ b1
    · rw [if_pos hm] at hkey
      rw [hkey] at h3
      simp [hm, h3, h4, Conn.close]
    · rw [if_neg hm] at hkey
      have hk : key = [] := List.length_eq_zero.mp hkey
      subst hk
      simp [hm, h4, Conn.close]

/-! ## Masking -/

theorem unmaskFrom_length (k : List Nat) (p : List Nat) (i : Nat) :
    (unmaskFrom k i p).length = p.length := by
  induction p generalizing i with
  | nil => rfl
  | cons b p ih => simp [unmaskFrom, ih]

theorem unmaskFrom_getD (k : List Nat) (p : List Nat) (i j : Nat) (hj : j < p.length) :
    (unmaskFrom k i p).getD j 0 = p.getD j 0 ^^^ k.getD ((i + j) % 4) 0 := by
  induction p generalizing i j with
  | nil => simp at hj
  | cons b p ih =>
    cases j with
    | zero => simp [unmaskFrom]
    | succ j =>
      have hj2 : j < p.length := by simpa using hj
      have h := ih (i + 1) j hj2
      simp only [unmaskFrom, List.getD_cons_succ, h]
      congr 3
      omega

theorem unmaskFrom_twice (k : List Nat) (p : List Nat) (i : Nat) :
    unmaskFrom k i (unmaskFrom k i p) = p := by
  induction p generalizing i with
  | nil => rfl
  | cons b p ih => simp [unmaskFrom, ih, Nat.xor_cancel_right]

/-! ## Encoding -/

theorem and_0x80_small (b : Nat) (hb : b < 128) : b &&& 0x80 = 0 := by
  revert b
  decide!

theorem or_0x80_small (b : Nat) (hb : b < 128) : b ||| 0x80 = b + 128 := by
  revert b
  decide!

theorem write_ok (c : Conn) (bs : List Nat) (hopen : c.closes = 0)
    (hw : c.writeErrs.head? ≠ some true) :
    c.write bs = (none, { c with output := c.output ++ bs, writeErrs := c.writeErrs.tail }) := by
  obtain ⟨inp, out, cl, we, lg⟩ := c
  simp only at hopen hw
  subst hopen
  match we, hw with
  | [], _ => simp [Conn.write]
  | false :: rest, _ => simp [Conn.write]
  | true :: rest, hw => simp at hw

/-- The header that `writeWebSocketFrame` puts before a message of `n` bytes, as the
specification gives it. -/
theorem writeWebSocketFrame_ok (c : Conn) (m : List Nat) (hopen : c.closes = 0)
    (hw : c.writeErrs.head? ≠ some true) (hm : m.length ≤ 65535) :
    writeWebSocketFrame c m =
      (none, { c with
        output := c.output ++
          ((if m.length ≤ 125 then [0x81, m.length]
            else [0x81, 126, m.length / 256, m.length % 256]) ++ m),
        writeErrs := c.writeErrs.tail }) := by
  unfold writeWebSocketFrame
  by_cases h : m.length ≤ 125
  · have h1 : m.length % 256 = m.length := Nat.mod_eq_of_lt (by omega)
    simp [h, h1, write_ok c _ hopen hw]
  · have h2 : (m.length >>> 8) % 256 = m.length / 256 := by
      rw [Nat.shiftRight_eq_div_pow]
      exact Nat.mod_eq_of_lt (by norm_num; omega)
    have h3 : (m.length &&& 0xFF) % 256 = m.length % 256 := by
      rw [and_0xFF, Nat.mod_mod]
    simp only [h2, h3]
    simp [h, hm, write_ok c _ hopen hw]


/-! ## Claims on the frame codec -/

/-- C1 (round trip): for every payload `m` of at most 65535 bytes and every 4-byte
masking key `k`, the bytes written by `writeWebSocketFrame` for `m`, turned into a
client frame with key `k`, are decoded by `readWebSocketFrame` into exactly `m`,
without error, and the decoder stops right after the frame. -/
theorem readWebSocketFrame_writeWebSocketFrame (c : Conn) (m k rest : List Nat)
    (hopen : c.closes = 0) (hm : m.length ≤ 65535) (hk : k.length = 4)
    (hin : c.input = toClientFrame k (writeWebSocketFrame (Conn.fresh []) m).2.output ++ rest) :
    readWebSocketFrame c = (.ok m, { c with input := rest }) := by
  rw [writeWebSocketFrame_ok (Conn.fresh []) m rfl (by simp [Conn.fresh]) hm] at hin
  simp only [Conn.fresh, List.nil_append] at hin
  by_cases h : m.length ≤ 125
  · have h7 : m.length &&& 0x7F ≠ 126 := by
      rw [and_0x7F]
      omega
    simp only [if_pos h, List.cons_append, List.nil_append, toClientFrame, if_neg h7,
      List.take_zero, List.drop_zero, or_0x80_small m.length (by omega)] at hin
    have hframe : CompleteFrame (m.length + 128) [] k (unmask k m) := by
      refine ⟨by omega, by simp, ?_, ?_, ?_⟩
      · rw [if_neg (by omega)]
        rfl
      · rw [if_pos (by omega)]
        exact hk
      · rw [declaredLen, if_neg (by omega), unmask, unmaskFrom_length]
        omega
    have hin2 : c.input = 0x81 :: (m.length + 128) :: ([] ++ k ++ unmask k m ++ rest) := by
      simpa using hin
    rw [read_complete c 0x81 (m.length + 128) [] k (unmask k m) rest hopen hin2 hframe]
    simp [unmask, unmaskFrom_twice]
  · have hlt : m.length / 256 < 256 := by omega
    simp only [if_neg h, List.cons_append, List.nil_append, toClientFrame] at hin
    have hframe : CompleteFrame 254 [m.length / 256, m.length % 256] k (unmask k m) := by
      refine ⟨by omega, ?_, rfl, hk, ?_⟩
      · intro e he
        simp only [List.mem_cons, List.mem_singleton, List.not_mem_nil, or_false] at he
        rcases he with rfl | rfl
        · exact hlt
        · exact Nat.mod_lt _ (by omega)
      · rw [declaredLen, unmask, unmaskFrom_length]
        simp only [List.getD_cons_zero, List.getD_cons_succ]
        have := Nat.div_add_mod m.length 256
        simp only [Nat.reduceMod, if_true]
        omega
    have hin2 : c.input = 0x81 :: 254 ::
        ([m.length / 256, m.length % 256] ++ k ++ unmask k m ++ rest) := by
      simpa using hin
    rw [read_complete c 0x81 254 _ k (unmask k m) rest hopen hin2 hframe]
    simp [unmask, unmaskFrom_twice]

/-- Witness of C1: a three-byte message under the key `[1, 2, 3, 4]`. -/
theorem readWebSocketFrame_writeWebSocketFrame_witness :
    (Conn.fresh (toClientFrame [1, 2, 3, 4]
        (writeWebSocketFrame (Conn.fresh []) [104, 105, 33]).2.output ++ [7])).closes = 0 ∧
      [104, 105, 33].length ≤ 65535 ∧ [1, 2, 3, 4].length = 4 ∧
      readWebSocketFrame (Conn.fresh (toClientFrame [1, 2, 3, 4]
        (writeWebSocketFrame (Conn.fresh []) [104, 105, 33]).2.output ++ [7])) =
        (.ok [104, 105, 33], Conn.fresh [7]) :=
  ⟨rfl, by decide, rfl,
    readWebSocketFrame_writeWebSocketFrame _ [104, 105, 33] [1, 2, 3, 4] [7] rfl (by decide) rfl rfl⟩

/-- C2 (frame layout): with a working sink, the bytes written for a message `m` of at
most 65535 bytes are a header followed by `m`; the header is `[0x81, len m]` when
`len m ≤ 125` and `[0x81, 126, len m / 256, len m mod 256]` when `126 ≤ len m`; its
mask bit is clear and the length it declares is the number of payload bytes. -/
theorem writeWebSocketFrame_bytes (c : Conn) (m : List Nat) (hopen : c.closes = 0)
    (hw : c.writeErrs.head? ≠ some true) (hm : m.length ≤ 65535) :
    ∃ header c1,
      writeWebSocketFrame c m = (none, c1) ∧
      c1.output = c.output ++ header ++ m ∧
      (m.length ≤ 125 → header = [0x81, m.length]) ∧
      (126 ≤ m.length → header = [0x81, 126, m.length / 256, m.length % 256]) ∧
      header.getD 1 0 &&& 0x80 = 0 ∧
      declaredLen (header.getD 1 0) (header.drop 2) = m.length := by
  refine ⟨if m.length ≤ 125 then [0x81, m.length]
    else [0x81, 126, m.length / 256, m.length % 256], _,
    writeWebSocketFrame_ok c m hopen hw hm, by simp, ?_, ?_, ?_, ?_⟩
  · intro h
    rw [if_pos h]
  · intro h
    rw [if_neg (by omega)]
  · by_cases h : m.length ≤ 125
    · simp only [if_pos h, List.getD_cons_zero, List.getD_cons_succ]
      exact and_0x80_small _ (by omega)
    · simp only [if_neg h, List.getD_cons_zero, List.getD_cons_succ]
      rfl
  · by_cases h : m.length ≤ 125
    · simp only [if_pos h, List.getD_cons_zero, List.getD_cons_succ, declaredLen]
      rw [if_neg (by omega)]
      omega
    · simp only [if_neg h, List.getD_cons_zero, List.getD_cons_succ, declaredLen]
      have := Nat.div_add_mod m.length 256
      simp
      omega

/-- Witness of C2: a message of 126 bytes on a fresh connection. -/
theorem writeWebSocketFrame_bytes_witness :
    (Conn.fresh []).closes = 0 ∧ (Conn.fresh []).writeErrs.head? ≠ some true ∧
      (List.replicate 126 7).length ≤ 65535 ∧
      ∃ header c1,
        writeWebSocketFrame (Conn.fresh []) (List.replicate 126 7) = (none, c1) ∧
        c1.output = (Conn.fresh []).output ++ header ++ List.replicate 126 7 ∧
        ((List.replicate 126 7).length ≤ 125 → header = [0x81, (List.replicate 126 7).length]) ∧
        (126 ≤ (List.replicate 126 7).length →
          header = [0x81, 126, (List.replicate 126 7).length / 256,
            (List.replicate 126 7).length % 256]) ∧
        header.getD 1 0 &&& 0x80 = 0 ∧
        declaredLen (header.getD 1 0) (header.drop 2) = (List.replicate 126 7).length :=
  ⟨rfl, by decide, by simp,
    writeWebSocketFrame_bytes (Conn.fresh []) (List.replicate 126 7) rfl (by decide) (by simp)⟩


/-- C3 (decoding): on a stream that starts with a complete frame whose opcode is not
0x8, `readWebSocketFrame` succeeds, consumes exactly the frame and returns a payload of
the declared length; with the mask bit set, byte `i` of the result is wire byte `i`
XOR `key[i mod 4]`; with the mask bit clear there are no key bytes and the result is
the wire payload. -/
theorem readWebSocketFrame_payload (c : Conn) (b0 b1 : Nat) (ext key payload rest : List Nat)
    (hopen : c.closes = 0)
    (hin : c.input = b0 :: b1 :: (ext ++ key ++ payload ++ rest))
    (hframe : CompleteFrame b1 ext key payload)
    (hop : b0 % 16 ≠ 8) :
    ∃ result,
      readWebSocketFrame c = (.ok result, { c with input := rest }) ∧
      result.length = declaredLen b1 ext ∧
      (128 ≤ b1 → ∀ i, i < payload.length →
        result.getD i 0 = payload.getD i 0 ^^^ key.getD (i % 4) 0) ∧
      (b1 < 128 → key = [] ∧ result = payload) := by
  refine ⟨if 128 ≤ b1 then unmask key payload else payload, ?_, ?_, ?_, ?_⟩
  · rw [read_complete c b0 b1 ext key payload rest hopen hin hframe, if_neg hop]
  · rw [← hframe.2.2.2.2]
    split
    · exact unmaskFrom_length key payload 0
    · rfl
  · intro hm i hi
    rw [if_pos hm, unmask, unmaskFrom_getD key payload 0 i hi, Nat.zero_add]
  · intro hm
    have hk := hframe.2.2.2.1
    rw [if_neg (by omega)] at hk
    exact ⟨List.length_eq_zero.mp hk, by rw [if_neg (by omega)]⟩

/-- Witness of C3: a masked text frame followed by one more byte. -/
theorem readWebSocketFrame_payload_witness :
    (Conn.fresh [0x81, 0x82, 1, 2, 3, 4, 105, 107, 9]).closes = 0 ∧
      (Conn.fresh [0x81, 0x82, 1, 2, 3, 4, 105, 107, 9]).input
        = 0x81 :: 0x82 :: ([] ++ [1, 2, 3, 4] ++ [105, 107] ++ [9]) ∧
      CompleteFrame 0x82 [] [1, 2, 3, 4] [105, 107] ∧ 0x81 % 16 ≠ 8 ∧
      ∃ result,
        readWebSocketFrame (Conn.fresh [0x81, 0x82, 1, 2, 3, 4, 105, 107, 9])
          = (.ok result, { Conn.fresh [0x81, 0x82, 1, 2, 3, 4, 105, 107, 9] with input := [9] }) ∧
        result.length = declaredLen 0x82 [] ∧
        (128 ≤ 0x82 → ∀ i, i < [105, 107].length →
          result.getD i 0 = [105, 107].getD i 0 ^^^ [1, 2, 3, 4].getD (i % 4) 0) ∧
        (0x82 < 128 → [1, 2, 3, 4] = [] ∧ result = [105, 107]) :=
  ⟨rfl, rfl, by decide, by decide,
    readWebSocketFrame_payload _ 0x81 0x82 [] [1, 2, 3, 4] [105, 107] [9] rfl rfl
      (by decide) (by decide)⟩

/-- C4 (message too large): with a working sink, `writeWebSocketFrame` fails with the
"message too long" error exactly when the message has more than 65535 bytes, and
succeeds otherwise; when it fails the connection is left untouched, so nothing is
written; and any frame it does write carries the message after a header whose 7-bit
length field is not 127, the message having at most 65535 bytes. -/
theorem writeWebSocketFrame_too_long (c : Conn) (m : List Nat) (hopen : c.closes = 0)
    (hw : c.writeErrs.head? ≠ some true) :
    ((writeWebSocketFrame c m).1 = some (.errorf "message too long") ↔ 65535 < m.length) ∧
    ((writeWebSocketFrame c m).1 = none ↔ m.length ≤ 65535) ∧
    (65535 < m.length → (writeWebSocketFrame c m).2 = c) ∧
    (∀ frame, (writeWebSocketFrame c m).2.output = c.output ++ frame → frame ≠ [] →
      m.length ≤ 65535 ∧
      ∃ header, frame = header ++ m ∧ header.length ≤ 4 ∧ header.getD 1 0 % 128 ≠ 127) := by
  by_cases hm : m.length ≤ 65535
  · rw [writeWebSocketFrame_ok c m hopen hw hm]
    refine ⟨by simp [hm], by simp [hm], fun h => by omega, ?_⟩
    intro frame hframe _
    refine ⟨hm, ?_⟩
    simp only [List.append_cancel_left_eq] at hframe
    by_cases h : m.length ≤ 125
    · refine ⟨[0x81, m.length], by rw [← hframe, if_pos h], by simp, ?_⟩
      simp only [List.getD_cons_zero, List.getD_cons_succ]
      omega
    · exact ⟨[0x81, 126, m.length / 256, m.length % 256], by rw [← hframe, if_neg h],
        by simp, by simp⟩
  · have h1 : ¬ m.length ≤ 125 := by omega
    have hres : writeWebSocketFrame c m = (some (.errorf "message too long"), c) := by
      simp [writeWebSocketFrame, h1, hm]
    rw [hres]
    refine ⟨by simp; omega, by simp; omega, fun _ => rfl, ?_⟩
    intro frame hframe hne
    simp at hframe
    exact absurd hframe hne

/-- Witness of C4: a two-byte message on a fresh connection. -/
theorem writeWebSocketFrame_too_long_witness :
    (Conn.fresh []).closes = 0 ∧ (Conn.fresh []).writeErrs.head? ≠ some true ∧
      (((writeWebSocketFrame (Conn.fresh []) [104, 105]).1 = some (.errorf "message too long")
          ↔ 65535 < [104, 105].length) ∧
        ((writeWebSocketFrame (Conn.fresh []) [104, 105]).1 = none ↔ [104, 105].length ≤ 65535) ∧
        (65535 < [104, 105].length → (writeWebSocketFrame (Conn.fresh []) [104, 105]).2 = Conn.fresh []) ∧
        (∀ frame, (writeWebSocketFrame (Conn.fresh []) [104, 105]).2.output
            = (Conn.fresh []).output ++ frame → frame ≠ [] →
          [104, 105].length ≤ 65535 ∧
          ∃ header, frame = header ++ [104, 105] ∧ header.length ≤ 4 ∧
            header.getD 1 0 % 128 ≠ 127)) :=
  ⟨rfl, by decide, writeWebSocketFrame_too_long (Conn.fresh []) [104, 105] rfl (by decide)⟩


theorem readFull_ok_inv (c c1 : Conn) (n : Nat) (xs : List Nat) (hn : n ≠ 0)
    (h : readFull c n = (.ok xs, c1)) : xs = c.input.take n := by
  unfold readFull at h
  simp only [if_neg hn] at h
  split at h
  · cases h
  · split at h
    · cases h
      rfl
    · split at h <;> cases h

theorem readWebSocketFrame_close_not_ok (c : Conn) (b0 : Nat) (tail : List Nat)
    (hin : c.input = b0 :: tail) (hop : b0 % 16 = 8) (p : List Nat) (c1 : Conn) :
    readWebSocketFrame c ≠ (.ok p, c1) := by
  intro h
  unfold readWebSocketFrame at h
  split at h
  · cases h
  · rename_i header c2 heq
    have hh : header.getD 0 0 = b0 := by
      rw [readFull_ok_inv c c2 2 header (by decide) heq, hin]
      cases tail <;> rfl
    simp only [hh, and_0x0F, hop] at h
    split at h
    · cases h
    · split at h
      · cases h
      · split at h
        · cases h
        · simp at h

/-! ## Truncated frames -/

theorem readWebSocketFrame_stages (c : Conn) :
    readWebSocketFrame c =
      match readFull c 2 with
      | (.error err, c1) => (.error err, c1)
      | (.ok header, c1) =>
        match (if (header.getD 1 0 &&& 0x7F) == 126 then
            match readFull c1 2 with
            | (.error err, c2) => (.error err, c2)
            | (.ok extended, c2) => (.ok (extended.getD 0 0 <<< 8 ||| extended.getD 1 0), c2)
          else (.ok (header.getD 1 0 &&& 0x7F), c1) : Except Err Nat × Conn) with
        | (.error err, c2) => (.error err, c2)
        | (.ok payloadLen, c2) =>
          readPayload (header.getD 0 0 &&& 0x0F) ((header.getD 1 0 &&& 0x80) != 0) payloadLen c2 := by
  unfold readWebSocketFrame readPayload
  rfl

theorem readPayload_short (c2 : Conn) (opcode : Nat) (masked : Bool) (key payload : List Nat)
    (j : Nat) (hopen : c2.closes = 0)
    (hkey : key.length = if masked = true then 4 else 0)
    (hj : j < key.length + payload.length)
    (hin : c2.input = (key ++ payload).take j) :
    ∃ e c3, readPayload opcode masked payload.length c2 = (.error e, c3) ∧
      e.isTransport = true := by
  cases masked with
  | false =>
    simp only [Bool.false_eq_true, if_false] at hkey
    have hk : key = [] := List.length_eq_zero.mp hkey
    subst hk
    have hlen : c2.input.length < payload.length := by
      rw [hin]
      simp at hj ⊢
      omega
    obtain ⟨e, c3, h, ht, _⟩ := readFull_short c2 payload.length hopen hlen
    exact ⟨e, c3, by simp [readPayload, h], ht⟩
  | true =>
    simp only [if_true] at hkey
    by_cases hj4 : j < 4
    · have hlen : c2.input.length < 4 := by
        rw [hin]
        simp
        omega
      obtain ⟨e, c3, h, ht, _⟩ := readFull_short c2 4 hopen hlen
      exact ⟨e, c3, by simp [readPayload, h], ht⟩
    · have hin2 : c2.input = key ++ payload.take (j - 4) := by
        rw [hin, List.take_append_eq_append_take, hkey, List.take_of_length_le (by omega)]
      have h3 := readFull_ok c2 key (payload.take (j - 4)) hopen hin2
      rw [hkey] at h3
      have hlen : ({ c2 with input := payload.take (j - 4) } : Conn).input.length
          < payload.length := by
        simp
        omega
      obtain ⟨e, c3, h, ht, _⟩ := readFull_short
        ({ c2 with input := payload.take (j - 4) } : Conn) payload.length hopen hlen
      exact ⟨e, c3, by simp only [readPayload, if_true, h3, h], ht⟩

theorem readWebSocketFrame_truncated (c : Conn) (b0 b1 : Nat) (ext key payload : List Nat)
    (n : Nat) (hopen : c.closes = 0) (hframe : CompleteFrame b1 ext key payload)
    (hn : n < (b0 :: b1 :: (ext ++ key ++ payload)).length)
    (hin : c.input = (b0 :: b1 :: (ext ++ key ++ payload)).take n) :
    ∃ e c1, readWebSocketFrame c = (.error e, c1) ∧ e.isTransport = true := by
  obtain ⟨hb1, hextb, hext, hkey, hlen⟩ := hframe
  have hkey2 : key.length = if ((b1 &&& 0x80) != 0) = true then 4 else 0 := by
    rw [and_0x80_ne_zero b1 hb1, hkey]
    simp
  rw [readWebSocketFrame_stages]
  match n, hn, hin with
  | 0, _, hin =>
    obtain ⟨e, c1, h, ht, _⟩ := readFull_short c 2 hopen (by simp [hin])
    exact ⟨e, c1, by simp [h], ht⟩
  | 1, _, hin =>
    obtain ⟨e, c1, h, ht, _⟩ := readFull_short c 2 hopen (by simp [hin])
    exact ⟨e, c1, by simp [h], ht⟩
  | k + 2, hn, hin =>
    have hk : k < ext.length + key.length + payload.length := by
      simp at hn
      omega
    simp only [List.take_succ_cons] at hin
    have h1 := readFull_ok c [b0, b1] ((ext ++ key ++ payload).take k) hopen (by simpa using hin)
    simp only [List.length_cons, List.length_nil, Nat.zero_add, Nat.reduceAdd] at h1
    simp only [h1, List.getD_cons_zero, List.getD_cons_succ, and_0x7F, beq_iff_eq]
    by_cases h126 : b1 % 128 = 126
    · rw [if_pos h126] at hext
      obtain ⟨e0, e1, rfl⟩ := List.length_eq_two.mp hext
      have he1 : e1 < 256 := hextb e1 (by simp)
      rw [declaredLen, if_pos h126] at hlen
      simp only [List.getD_cons_zero, List.getD_cons_succ] at hlen
      simp only [if_pos h126]
      match k, hk with
      | 0, _ =>
        obtain ⟨e, c1, h, ht, _⟩ := readFull_short
          ({ c with input := ([e0, e1] ++ key ++ payload).take 0 } : Conn) 2 hopen (by simp)
        exact ⟨e, c1, by simp only [h], ht⟩
      | 1, _ =>
        obtain ⟨e, c1, h, ht, _⟩ := readFull_short
          ({ c with input := ([e0, e1] ++ key ++ payload).take 1 } : Conn) 2 hopen (by simp)
        exact ⟨e, c1, by simp only [h], ht⟩
      | j + 2, hk =>
        have hj : j < key.length + payload.length := by
          simp at hk
          omega
        have h2 := readFull_ok
          ({ c with input := ([e0, e1] ++ key ++ payload).take (j + 2) } : Conn) [e0, e1]
          ((key ++ payload).take j) hopen (by simp)
        simp only [List.length_cons, List.length_nil, Nat.zero_add, Nat.reduceAdd] at h2
        simp only [h2, List.getD_cons_zero, List.getD_cons_succ, shl8_or e0 e1 he1, ← hlen]
        exact readPayload_short _ _ _ key payload j hopen hkey2 hj rfl
    · rw [if_neg h126] at hext
      have he : ext = [] := List.length_eq_zero.mp hext
      subst he
      rw [declaredLen, if_neg h126] at hlen
      simp only [if_neg h126]
      rw [← hlen]
      exact readPayload_short _ _ _ key payload k hopen hkey2 (by simpa using hk) (by simp)

/-- C5 (close frames), amended: on a stream whose first byte has low nibble 0x8,
`readWebSocketFrame` never returns a payload, whatever follows that byte; and when the
stream starts with a complete frame with that opcode, it returns the
"connection closed" error after consuming the frame and closing the connection once. -/
theorem readWebSocketFrame_close (c : Conn) (b0 : Nat) (hop : b0 % 16 = 8) :
    (∀ tail p c1, readWebSocketFrame { c with input := b0 :: tail } ≠ (.ok p, c1)) ∧
    (c.closes = 0 → ∀ b1 ext key payload rest, CompleteFrame b1 ext key payload →
      readWebSocketFrame { c with input := b0 :: b1 :: (ext ++ key ++ payload ++ rest) } =
        (.error (.errorf "connection closed"), { c with input := rest, closes := 1 })) := by
  refine ⟨fun tail => readWebSocketFrame_close_not_ok _ b0 tail rfl hop, ?_⟩
  intro hopen b1 ext key payload rest hframe
  rw [read_complete ({ c with input := b0 :: b1 :: (ext ++ key ++ payload ++ rest) } : Conn)
    b0 b1 ext key payload rest hopen rfl hframe, if_pos hop]

/-- Witness of C5: close frames (first byte `0x88`) on a fresh connection. -/
theorem readWebSocketFrame_close_witness :
    0x88 % 16 = 8 ∧
      ((∀ tail p c1, readWebSocketFrame { Conn.fresh [] with input := 0x88 :: tail } ≠ (.ok p, c1)) ∧
        ((Conn.fresh []).closes = 0 → ∀ b1 ext key payload rest, CompleteFrame b1 ext key payload →
          readWebSocketFrame
              { Conn.fresh [] with input := 0x88 :: b1 :: (ext ++ key ++ payload ++ rest) } =
            (.error (.errorf "connection closed"),
              { Conn.fresh [] with input := rest, closes := 1 }))) :=
  ⟨by decide, readWebSocketFrame_close (Conn.fresh []) 0x88 (by decide)⟩

/-- Counterexample to C5 as stated: the stream `0x88 0x02 0x03` starts with opcode
0x8 and announces two payload bytes but holds one; the decoder returns the transport
error `unexpected EOF`, not "connection closed", and does not close the connection. -/
theorem readWebSocketFrame_close_truncated :
    0x88 % 16 = 8 ∧
      readWebSocketFrame (Conn.fresh [0x88, 0x02, 0x03]) = (.error .unexpectedEOF, Conn.fresh []) ∧
      (readWebSocketFrame (Conn.fresh [0x88, 0x02, 0x03])).1
        ≠ .error (.errorf "connection closed") ∧
      (readWebSocketFrame (Conn.fresh [0x88, 0x02, 0x03])).2.closes = 0 := by
  decide

/-- C6 (short reads): on an open connection, if the stream is a proper prefix of a
complete frame (it ends inside the header, the extended length, the key or the
payload), `readWebSocketFrame` returns a transport error and no payload; if the stream
starts with the whole frame and the opcode is not 0x8, it returns a payload, also when
the payload is empty and nothing follows the frame. -/
theorem readWebSocketFrame_short_read (c : Conn) (b0 b1 : Nat) (ext key payload : List Nat)
    (hopen : c.closes = 0) (hframe : CompleteFrame b1 ext key payload) :
    (∀ n, n < (b0 :: b1 :: (ext ++ key ++ payload)).length →
      ∃ e c1, readWebSocketFrame { c with input := (b0 :: b1 :: (ext ++ key ++ payload)).take n }
        = (.error e, c1) ∧ e.isTransport = true) ∧
    (b0 % 16 ≠ 8 → ∀ rest,
      ∃ p, readWebSocketFrame { c with input := b0 :: b1 :: (ext ++ key ++ payload ++ rest) }
        = (.ok p, { c with input := rest })) := by
  refine ⟨fun n hn => readWebSocketFrame_truncated
    ({ c with input := (b0 :: b1 :: (ext ++ key ++ payload)).take n } : Conn)
    b0 b1 ext key payload n hopen hframe hn rfl, ?_⟩
  intro hop rest
  refine ⟨if 128 ≤ b1 then unmask key payload else payload, ?_⟩
  rw [read_complete ({ c with input := b0 :: b1 :: (ext ++ key ++ payload ++ rest) } : Conn)
    b0 b1 ext key payload rest hopen rfl hframe, if_neg hop]

/-- Witness of C6: the masked frame `0x81 0x82 1 2 3 4 105 107` and its prefixes. -/
theorem readWebSocketFrame_short_read_witness :
    (Conn.fresh []).closes = 0 ∧ CompleteFrame 0x82 [] [1, 2, 3, 4] [105, 107] ∧
      ((∀ n, n < (0x81 :: 0x82 :: ([] ++ [1, 2, 3, 4] ++ [105, 107])).length →
        ∃ e c1, readWebSocketFrame
            { Conn.fresh [] with
              input := (0x81 :: 0x82 :: ([] ++ [1, 2, 3, 4] ++ [105, 107])).take n }
          = (.error e, c1) ∧ e.isTransport = true) ∧
      (0x81 % 16 ≠ 8 → ∀ rest,
        ∃ p, readWebSocketFrame
            { Conn.fresh [] with
              input := 0x81 :: 0x82 :: ([] ++ [1, 2, 3, 4] ++ [105, 107] ++ rest) }
          = (.ok p, { Conn.fresh [] with input := rest }))) :=
  ⟨rfl, by decide,
    readWebSocketFrame_short_read (Conn.fresh []) 0x81 0x82 [] [1, 2, 3, 4] [105, 107] rfl
      (by decide)⟩

/-! ## What the codec leaves unchanged -/

theorem readFull_effect (c c1 : Conn) (n : Nat) (r : Except Err (List Nat))
    (h : readFull c n = (r, c1)) :
    c1.output = c.output ∧ c1.closes = c.closes ∧ c1.writeErrs = c.writeErrs ∧
      c1.log = c.log ∧ c1.input.length ≤ c.input.length ∧
      (∀ xs, r = .ok xs → c1.input.length + n ≤ c.input.length) := by
  unfold readFull at h
  split at h
  · cases h
    rename_i h0
    simp [h0]
  · split at h
    · cases h
      simp
    · split at h
      · cases h
        rename_i hle
        simp
        omega
      · split at h <;> cases h <;> simp

theorem readPayload_effect (c c1 : Conn) (opcode payloadLen : Nat) (masked : Bool)
    (r : Except Err (List Nat)) (h : readPayload opcode masked payloadLen c = (r, c1)) :
    c1.output = c.output ∧ c1.writeErrs = c.writeErrs ∧ c1.log = c.log ∧
      c1.input.length ≤ c.input.length ∧ (∀ p, r = .ok p → c1.closes = c.closes) := by
  unfold readPayload at h
  have key : ∀ (k : Except Err (List Nat)) (c3 : Conn),
      (if masked = true then readFull c 4 else (.ok [0, 0, 0, 0], c)) = (k, c3) →
      c3.output = c.output ∧ c3.closes = c.closes ∧ c3.writeErrs = c.writeErrs ∧
        c3.log = c.log ∧ c3.input.length ≤ c.input.length := by
    intro k c3 hk
    split at hk
    · obtain ⟨h1, h2, h3, h4, h5, _⟩ := readFull_effect c c3 4 k hk
      exact ⟨h1, h2, h3, h4, h5⟩
    · cases hk
      simp
  simp only at h
  split at h
  · rename_i err c3 hk
    cases h
    obtain ⟨h1, h2, h3, h4, h5⟩ := key _ _ hk
    exact ⟨h1, h3, h4, h5, by simp⟩
  · rename_i maskingKey c3 hk
    obtain ⟨h1, h2, h3, h4, h5⟩ := key _ _ hk
    split at h
    · rename_i err c4 hp
      obtain ⟨g1, g2, g3, g4, g5, _⟩ := readFull_effect c3 c4 payloadLen _ hp
      cases h
      exact ⟨by rw [g1, h1], by rw [g3, h3], by rw [g4, h4], by omega, by simp⟩
    · rename_i payload c4 hp
      obtain ⟨g1, g2, g3, g4, g5, _⟩ := readFull_effect c3 c4 payloadLen _ hp
      split at h
      · cases h
        exact ⟨by simp [Conn.close, g1, h1], by simp [Conn.close, g3, h3],
          by simp [Conn.close, g4, h4], by simp [Conn.close]; omega, by simp⟩
      · cases h
        exact ⟨by rw [g1, h1], by rw [g3, h3], by rw [g4, h4], by omega,
          fun _ _ => by rw [g2, h2]⟩

theorem readWebSocketFrame_effect (c c1 : Conn) (r : Except Err (List Nat))
    (h : readWebSocketFrame c = (r, c1)) :
    c1.output = c.output ∧ c1.writeErrs = c.writeErrs ∧ c1.log = c.log ∧
      c1.input.length ≤ c.input.length ∧
      (∀ p, r = .ok p → c1.closes = c.closes ∧ c1.input.length + 2 ≤ c.input.length) := by
  rw [readWebSocketFrame_stages] at h
  split at h
  · rename_i err c2 h1
    cases h
    obtain ⟨g1, g2, g3, g4, g5, _⟩ := readFull_effect c c1 2 _ h1
    exact ⟨g1, g3, g4, g5, by simp⟩
  · rename_i header c2 h1
    obtain ⟨g1, g2, g3, g4, g5, g6⟩ := readFull_effect c c2 2 _ h1
    have g7 := g6 header rfl
    have len : ∀ (k : Except Err Nat) (c3 : Conn),
        (if (header.getD 1 0 &&& 0x7F) == 126 then
            match readFull c2 2 with
            | (.error err, c2) => (.error err, c2)
            | (.ok extended, c2) => (.ok (extended.getD 0 0 <<< 8 ||| extended.getD 1 0), c2)
          else (.ok (header.getD 1 0 &&& 0x7F), c2) : Except Err Nat × Conn) = (k, c3) →
        c3.output = c2.output ∧ c3.closes = c2.closes ∧ c3.writeErrs = c2.writeErrs ∧
          c3.log = c2.log ∧ c3.input.length ≤ c2.input.length := by
      intro k c3 hk
      split at hk
      · split at hk
        · rename_i err c4 h2
          cases hk
          obtain ⟨e1, e2, e3, e4, e5, _⟩ := readFull_effect c2 c3 2 _ h2
          exact ⟨e1, e2, e3, e4, e5⟩
        · rename_i extended c4 h2
          cases hk
          obtain ⟨e1, e2, e3, e4, e5, _⟩ := readFull_effect c2 c3 2 _ h2
          exact ⟨e1, e2, e3, e4, e5⟩
      · cases hk
        simp
    split at h
    · rename_i err c3 hk
      cases h
      obtain ⟨e1, e2, e3, e4, e5⟩ := len _ _ hk
      exact ⟨by rw [e1, g1], by rw [e3, g3], by rw [e4, g4], by omega, by simp⟩
    · rename_i payloadLen c3 hk
      obtain ⟨e1, e2, e3, e4, e5⟩ := len _ _ hk
      obtain ⟨f1, f3, f4, f5, f6⟩ := readPayload_effect c3 c1 _ _ _ r h
      refine ⟨by rw [f1, e1, g1], by rw [f3, e3, g3], by rw [f4, e4, g4], by omega, ?_⟩
      intro p hp
      exact ⟨by rw [f6 p hp, e2, g2], by omega⟩

theorem write_effect (c : Conn) (bs : List Nat) :
    (c.write bs).2.input = c.input ∧ (c.write bs).2.closes = c.closes ∧
      (c.write bs).2.log = c.log ∧
      ((c.write bs).2.output = c.output ∨ (c.write bs).2.output = c.output ++ bs) := by
  unfold Conn.write
  split
  · simp
  · split <;> simp

theorem writeWebSocketFrame_effect (c : Conn) (m : List Nat) :
    (writeWebSocketFrame c m).2.input = c.input ∧
      (writeWebSocketFrame c m).2.closes = c.closes ∧
      (writeWebSocketFrame c m).2.log = c.log ∧
      ∃ later, (writeWebSocketFrame c m).2.output = c.output ++ later := by
  unfold writeWebSocketFrame
  simp only
  split
  · obtain ⟨h1, h2, h3, h4⟩ := write_effect c ([0x81] ++ [m.length % 256] ++ m)
    refine ⟨h1, h2, h3, ?_⟩
    rcases h4 with h4 | h4
    · exact ⟨[], by rw [h4, List.append_nil]⟩
    · exact ⟨_, h4⟩
  · split
    · obtain ⟨h1, h2, h3, h4⟩ := write_effect c
        ([0x81] ++ [126, (m.length >>> 8) % 256, (m.length &&& 0xFF) % 256] ++ m)
      refine ⟨h1, h2, h3, ?_⟩
      rcases h4 with h4 | h4
      · exact ⟨[], by rw [h4, List.append_nil]⟩
      · exact ⟨_, h4⟩
    · exact ⟨rfl, rfl, rfl, [], by simp⟩

/-! ## The frame loop -/

theorem frameLoop_total (fuel : Nat) (c : Conn) (h : c.input.length < fuel) :
    ∃ c1, frameLoop fuel c = some c1 := by
  induction fuel generalizing c with
  | zero => omega
  | succ fuel ih =>
    unfold frameLoop
    split
    · split <;> exact ⟨_, rfl⟩
    · rename_i message c1 hr
      obtain ⟨_, _, _, _, h5⟩ := readWebSocketFrame_effect c c1 _ hr
      have h6 := (h5 message rfl).2
      simp only
      split
      · exact ⟨_, rfl⟩
      · rename_i c3 hw
        have h7 := (writeWebSocketFrame_effect (c1.println (.received message))
          (message ++ str " (echo)")).1
        rw [hw] at h7
        simp only [Conn.println] at h7
        have h8 : c3.input.length = c1.input.length := by rw [h7]
        exact ih c3 (by omega)

theorem frameLoop_output (fuel : Nat) (c c1 : Conn) (h : frameLoop fuel c = some c1) :
    ∃ later, c1.output = c.output ++ later := by
  induction fuel generalizing c with
  | zero => simp [frameLoop] at h
  | succ fuel ih =>
    unfold frameLoop at h
    split at h
    · rename_i err c2 hr
      obtain ⟨h1, _⟩ := readWebSocketFrame_effect c c2 _ hr
      split at h <;> cases h <;> exact ⟨[], by simp [Conn.println, h1]⟩
    · rename_i message c2 hr
      obtain ⟨h1, _⟩ := readWebSocketFrame_effect c c2 _ hr
      obtain ⟨_, _, _, later, h2⟩ := writeWebSocketFrame_effect (c2.println (.received message))
        (message ++ str " (echo)")
      simp only at h
      split at h
      · rename_i err c3 hw
        cases h
        rw [hw] at h2
        exact ⟨later, by simpa [Conn.println, h1] using h2⟩
      · rename_i c3 hw
        rw [hw] at h2
        obtain ⟨later2, h3⟩ := ih c3 h
        exact ⟨later ++ later2, by
          rw [h3, h2]
          simp [Conn.println, h1]⟩

/-! ## Claims on the handshake -/

/-- C7 (accept token test vector): for the client key `dGhlIHNhbXBsZSBub25jZQ==` the
handshake computes the accept token `s3pPLMBiTxaQ9kYGzzhZRbK+xOo=`. -/
theorem acceptKey_test_vector :
    acceptKey (str "dGhlIHNhbXBsZSBub25jZQ==") = str "s3pPLMBiTxaQ9kYGzzhZRbK+xOo=" := by
  decide!

theorem sha1_length (msg : List Nat) : (sha1 msg).length = 20 := by
  simp [sha1, bytesOfWord]

theorem base64_length : ∀ l : List Nat, (base64 l).length = 4 * ((l.length + 2) / 3)
  | [] => rfl
  | [_] => by simp [base64]
  | [_, _] => by simp [base64]
  | _ :: _ :: _ :: rest => by
    simp only [base64, List.length_append, List.length_cons, List.length_nil,
      base64_length rest]
    omega

/-- C8 (handshake response): when the parsed headers of the request block have
`Upgrade` equal to `websocket` and a non-empty `Sec-WebSocket-Key` `k`, the handler
returns, and the bytes it has sent start with the 101 response whose
`Sec-WebSocket-Accept` value is the standard base64 encoding of the SHA-1 digest of
`k` followed by `258EAFA5-E914-47DA-95CA-C5AB0DC85B11`, a token of 28 bytes; nothing
precedes the response. -/
theorem handleConn_response (c : Conn) (block : List Nat) (hopen : c.closes = 0)
    (hw : c.writeErrs.head? ≠ some true)
    (hup : (parseHeaders block).get (str "Upgrade") = str "websocket")
    (hkey : (parseHeaders block).get (str "Sec-WebSocket-Key") ≠ []) :
    ∃ c1 later, handleConn c (.ok block) = some c1 ∧
      c1.output = c.output ++
        (str "HTTP/1.1 101 Switching Protocols\r\nUpgrade: websocket\r\nConnection: Upgrade\r\nSec-WebSocket-Accept: "
          ++ base64 (sha1 ((parseHeaders block).get (str "Sec-WebSocket-Key")
            ++ str "258EAFA5-E914-47DA-95CA-C5AB0DC85B11"))
          ++ str "\r\n\r\n")
        ++ later ∧
      (base64 (sha1 ((parseHeaders block).get (str "Sec-WebSocket-Key")
        ++ str "258EAFA5-E914-47DA-95CA-C5AB0DC85B11"))).length = 28 := by
  have hresp : ∀ k, response (acceptKey k) =
      str "HTTP/1.1 101 Switching Protocols\r\nUpgrade: websocket\r\nConnection: Upgrade\r\nSec-WebSocket-Accept: "
        ++ base64 (sha1 (k ++ str "258EAFA5-E914-47DA-95CA-C5AB0DC85B11"))
        ++ str "\r\n\r\n" := fun _ => rfl
  have hwr := write_ok c (response (acceptKey ((parseHeaders block).get (str "Sec-WebSocket-Key"))))
    hopen hw
  obtain ⟨c2, hloop⟩ := frameLoop_total
    (({ c with
        output := c.output ++
          response (acceptKey ((parseHeaders block).get (str "Sec-WebSocket-Key"))),
        writeErrs := c.writeErrs.tail } : Conn).println .established).input.length.succ
    (({ c with
        output := c.output ++
          response (acceptKey ((parseHeaders block).get (str "Sec-WebSocket-Key"))),
        writeErrs := c.writeErrs.tail } : Conn).println .established) (Nat.lt_succ_self _)
  obtain ⟨later, hout⟩ := frameLoop_output _ _ _ hloop
  refine ⟨c2.close, later, ?_, ?_, ?_⟩
  · simp only [handleConn, handlerBody, hup, bne_self_eq_false, Bool.false_eq_true, if_false,
      beq_iff_eq, if_neg hkey, hwr]
    rw [hloop]
    rfl
  · rw [← hresp]
    simpa [Conn.close, Conn.println] using hout
  · rw [base64_length, sha1_length]

/-- Witness of C8: the request of the protocol's test vector on a fresh connection
whose stream holds nothing more; the bytes sent are the 101 response with the
published accept token, and nothing else. -/
theorem handleConn_response_witness :
    (Conn.fresh []).closes = 0 ∧ (Conn.fresh []).writeErrs.head? ≠ some true ∧
      (parseHeaders (str "GET / HTTP/1.1\r\nUpgrade: websocket\r\nSec-WebSocket-Key: dGhlIHNhbXBsZSBub25jZQ==\r\n\r\n")).get
        (str "Upgrade") = str "websocket" ∧
      (parseHeaders (str "GET / HTTP/1.1\r\nUpgrade: websocket\r\nSec-WebSocket-Key: dGhlIHNhbXBsZSBub25jZQ==\r\n\r\n")).get
        (str "Sec-WebSocket-Key") = str "dGhlIHNhbXBsZSBub25jZQ==" ∧
      (∃ c1 later,
        handleConn (Conn.fresh [])
          (.ok (str "GET / HTTP/1.1\r\nUpgrade: websocket\r\nSec-WebSocket-Key: dGhlIHNhbXBsZSBub25jZQ==\r\n\r\n"))
          = some c1 ∧
        c1.output = (Conn.fresh []).output ++
          (str "HTTP/1.1 101 Switching Protocols\r\nUpgrade: websocket\r\nConnection: Upgrade\r\nSec-WebSocket-Accept: "
            ++ base64 (sha1 ((parseHeaders (str "GET / HTTP/1.1\r\nUpgrade: websocket\r\nSec-WebSocket-Key: dGhlIHNhbXBsZSBub25jZQ==\r\n\r\n")).get
              (str "Sec-WebSocket-Key") ++ str "258EAFA5-E914-47DA-95CA-C5AB0DC85B11"))
            ++ str "\r\n\r\n")
          ++ later ∧
        (base64 (sha1 ((parseHeaders (str "GET / HTTP/1.1\r\nUpgrade: websocket\r\nSec-WebSocket-Key: dGhlIHNhbXBsZSBub25jZQ==\r\n\r\n")).get
          (str "Sec-WebSocket-Key") ++ str "258EAFA5-E914-47DA-95CA-C5AB0DC85B11"))).length = 28) ∧
      (handleConn (Conn.fresh [])
          (.ok (str "GET / HTTP/1.1\r\nUpgrade: websocket\r\nSec-WebSocket-Key: dGhlIHNhbXBsZSBub25jZQ==\r\n\r\n"))).map
        Conn.output
        = some (str "HTTP/1.1 101 Switching Protocols\r\nUpgrade: websocket\r\nConnection: Upgrade\r\nSec-WebSocket-Accept: s3pPLMBiTxaQ9kYGzzhZRbK+xOo=\r\n\r\n") :=
  ⟨rfl, by decide, by decide!, by decide!,
    handleConn_response (Conn.fresh []) _ rfl (by decide) (by decide!) (by decide!),
    by decide!⟩

/-- C9 (handshake rejection): with a working sink, a request block whose parsed
`Upgrade` header is not `websocket` (absent headers read as the empty string) makes
the handler write nothing, read nothing more, log the rejection and close the
connection; a block with `Upgrade: websocket` and an absent or empty
`Sec-WebSocket-Key` makes it write exactly the 400 response and stop without reading
a frame or logging anything, the connection being closed by the handler and again by
the deferred call. -/
theorem handleConn_rejects (c : Conn) (block : List Nat) (hopen : c.closes = 0)
    (hw : c.writeErrs.head? ≠ some true) :
    ((parseHeaders block).get (str "Upgrade") ≠ str "websocket" →
      handleConn c (.ok block) =
        some { c with closes := 1, log := c.log ++ [LogLine.notWebSocket] }) ∧
    ((parseHeaders block).get (str "Upgrade") = str "websocket" →
      (parseHeaders block).get (str "Sec-WebSocket-Key") = [] →
      handleConn c (.ok block) =
        some { c with
          output := c.output ++ str "HTTP/1.1 400 Bad Request\r\n\r\n",
          closes := 2,
          writeErrs := c.writeErrs.tail }) := by
  constructor
  · intro hup
    simp [handleConn, handlerBody, hup, Conn.println, Conn.close, hopen]
  · intro hup hkey
    have hwr := write_ok c badRequest hopen hw
    simp only [handleConn, handlerBody, hup, hkey, hwr, Conn.close, hopen, bne_self_eq_false,
      Bool.false_eq_true, if_false, beq_self_eq_true, if_true, Option.map_some']
    rfl

/-- Witness of C9: a request without any header on a fresh connection followed by
bytes that are never read. -/
theorem handleConn_rejects_witness :
    (Conn.fresh [1, 2]).closes = 0 ∧ (Conn.fresh [1, 2]).writeErrs.head? ≠ some true ∧
      (((parseHeaders (str "GET / HTTP/1.1\r\n\r\n")).get (str "Upgrade") ≠ str "websocket" →
        handleConn (Conn.fresh [1, 2]) (.ok (str "GET / HTTP/1.1\r\n\r\n")) =
          some { Conn.fresh [1, 2] with
            closes := 1, log := (Conn.fresh [1, 2]).log ++ [LogLine.notWebSocket] }) ∧
      ((parseHeaders (str "GET / HTTP/1.1\r\n\r\n")).get (str "Upgrade") = str "websocket" →
        (parseHeaders (str "GET / HTTP/1.1\r\n\r\n")).get (str "Sec-WebSocket-Key") = [] →
        handleConn (Conn.fresh [1, 2]) (.ok (str "GET / HTTP/1.1\r\n\r\n")) =
          some { Conn.fresh [1, 2] with
            output := (Conn.fresh [1, 2]).output ++ str "HTTP/1.1 400 Bad Request\r\n\r\n",
            closes := 2,
            writeErrs := (Conn.fresh [1, 2]).writeErrs.tail })) :=
  ⟨rfl, by decide, handleConn_rejects (Conn.fresh [1, 2]) _ rfl (by decide)⟩

/-- C10 (end-to-end scenario): decoding the client frame
`0x81 0x82 0x00 0x00 0x00 0x00 'h' 'i'` yields `hi`; the frame loop run on that stream
receives `hi`, writes exactly `0x81 0x09` followed by the nine bytes of `hi (echo)`,
and then stops at the end of the stream. -/
theorem echo_hi :
    readWebSocketFrame (Conn.fresh [0x81, 0x82, 0x00, 0x00, 0x00, 0x00, 104, 105])
      = (.ok (str "hi"), Conn.fresh []) ∧
    (writeWebSocketFrame (Conn.fresh []) (str "hi" ++ str " (echo)")).2.output
      = [0x81, 0x09] ++ str "hi (echo)" ∧
    frameLoop 9 (Conn.fresh [0x81, 0x82, 0x00, 0x00, 0x00, 0x00, 104, 105])
      = some { Conn.fresh [] with
          output := [0x81, 0x09, 104, 105, 32, 40, 101, 99, 104, 111, 41],
          log := [.received (str "hi"), .errorReadingFrame .eof] } := by
  decide!

/-! ## Further claims on the decoder -/

/-- C13 (masking idempotence): the unmasking step of `readWebSocketFrame` XORs byte `i`
with `k[i mod 4]` and keeps the length, and applying it twice with the same key gives
the original bytes back, for every byte sequence and every key. -/
theorem unmask_unmask (k p : List Nat) :
    (unmask k p).length = p.length ∧
    (∀ i, i < p.length → (unmask k p).getD i 0 = p.getD i 0 ^^^ k.getD (i % 4) 0) ∧
    unmask k (unmask k p) = p := by
  refine ⟨unmaskFrom_length k p 0, ?_, unmaskFrom_twice k p 0⟩
  intro i hi
  rw [unmask, unmaskFrom_getD k p 0 i hi, Nat.zero_add]

/-- C14 (length field 127): on an open connection and for an opcode other than 0x8,
a second byte whose low 7 bits are 127 makes `readWebSocketFrame` read no extended
length: after the four key bytes of a masked frame it takes exactly the next 127
bytes as payload.  The same holds for every 7-bit value other than 126 (the value is
the payload length), while 126 makes it read two more bytes as the big-endian
length. -/
theorem readWebSocketFrame_length_127 (c : Conn) (b0 : Nat) (hopen : c.closes = 0)
    (hop : b0 % 16 ≠ 8) :
    (∀ b1 key payload rest, b1 < 256 → b1 % 128 = 127 →
      key.length = (if 128 ≤ b1 then 4 else 0) → payload.length = 127 →
      readWebSocketFrame { c with input := b0 :: b1 :: (key ++ payload ++ rest) } =
        (.ok (if 128 ≤ b1 then unmask key payload else payload), { c with input := rest })) ∧
    (∀ b1 key payload rest, b1 < 256 → b1 % 128 ≠ 126 →
      key.length = (if 128 ≤ b1 then 4 else 0) → payload.length = b1 % 128 →
      readWebSocketFrame { c with input := b0 :: b1 :: (key ++ payload ++ rest) } =
        (.ok (if 128 ≤ b1 then unmask key payload else payload), { c with input := rest })) ∧
    (∀ b1 e0 e1 key payload rest, b1 < 256 → b1 % 128 = 126 → e0 < 256 → e1 < 256 →
      key.length = (if 128 ≤ b1 then 4 else 0) → payload.length = e0 * 256 + e1 →
      readWebSocketFrame
          { c with input := b0 :: b1 :: ([e0, e1] ++ key ++ payload ++ rest) } =
        (.ok (if 128 ≤ b1 then unmask key payload else payload), { c with input := rest })) := by
  have general : ∀ b1 key payload rest, b1 < 256 → b1 % 128 ≠ 126 →
      key.length = (if 128 ≤ b1 then 4 else 0) → payload.length = b1 % 128 →
      readWebSocketFrame { c with input := b0 :: b1 :: (key ++ payload ++ rest) } =
        (.ok (if 128 ≤ b1 then unmask key payload else payload), { c with input := rest }) := by
    intro b1 key payload rest hb1 hne hkey hlen
    have hframe : CompleteFrame b1 [] key payload :=
      ⟨hb1, by simp, by rw [if_neg hne]; rfl, hkey, by rw [declaredLen, if_neg hne]; exact hlen⟩
    rw [read_complete ({ c with input := b0 :: b1 :: (key ++ payload ++ rest) } : Conn)
      b0 b1 [] key payload rest hopen (by simp) hframe, if_neg hop]
  refine ⟨?_, general, ?_⟩
  · intro b1 key payload rest hb1 h127 hkey hlen
    exact general b1 key payload rest hb1 (by omega) hkey (by omega)
  · intro b1 e0 e1 key payload rest hb1 h126 he0 he1 hkey hlen
    have hframe : CompleteFrame b1 [e0, e1] key payload := by
      refine ⟨hb1, ?_, by rw [if_pos h126]; rfl, hkey, ?_⟩
      · intro e he
        simp only [List.mem_cons, List.mem_singleton, List.not_mem_nil, or_false] at he
        rcases he with rfl | rfl
        · exact he0
        · exact he1
      · rw [declaredLen, if_pos h126]
        simpa using hlen
    rw [read_complete
      ({ c with input := b0 :: b1 :: ([e0, e1] ++ key ++ payload ++ rest) } : Conn)
      b0 b1 [e0, e1] key payload rest hopen rfl hframe, if_neg hop]

/-- Witness of C14: text frames on a fresh connection. -/
theorem readWebSocketFrame_length_127_witness :
    (Conn.fresh []).closes = 0 ∧ 0x81 % 16 ≠ 8 ∧
      readWebSocketFrame
          { Conn.fresh [] with input := 0x81 :: 127 :: ([] ++ List.replicate 127 7 ++ [1, 2]) } =
        (.ok (if 128 ≤ 127 then unmask [] (List.replicate 127 7) else List.replicate 127 7),
          { Conn.fresh [] with input := [1, 2] }) :=
  ⟨rfl, by decide,
    (readWebSocketFrame_length_127 (Conn.fresh []) 0x81 rfl (by decide)).1 127 []
      (List.replicate 127 7) [1, 2] (by decide) (by decide) rfl (by simp)⟩

theorem readPayload_opcode (op op1 : Nat) (masked : Bool) (n : Nat) (c : Conn)
    (h : (op == 0x8) = (op1 == 0x8)) :
    readPayload op masked n c = readPayload op1 masked n c := by
  unfold readPayload
  simp only [h]

/-- C17 (first byte): two streams that differ only in their first byte are decoded to
the same result, payload or failure, when both first bytes have low nibble 0x8 or
neither has; on an open connection they also leave the connection in the same state.
So the FIN bit, the reserved bits and the opcode of a data frame are ignored. -/
theorem readWebSocketFrame_first_byte (c : Conn) (b0 b0' : Nat) (tail : List Nat)
    (h : b0 % 16 = 8 ↔ b0' % 16 = 8) :
    (readWebSocketFrame { c with input := b0 :: tail }).1
        = (readWebSocketFrame { c with input := b0' :: tail }).1 ∧
      (c.closes = 0 →
        (readWebSocketFrame { c with input := b0 :: tail }).2
          = (readWebSocketFrame { c with input := b0' :: tail }).2) := by
  have hop : ((b0 &&& 0x0F) == 0x8) = ((b0' &&& 0x0F) == 0x8) := by
    rw [and_0x0F, and_0x0F]
    by_cases h1 : b0 % 16 = 8
    · simp [h1, h.mp h1]
    · have h2 : ¬ b0' % 16 = 8 := fun h2 => h1 (h.mpr h2)
      simp [h1, h2]
  by_cases hc : 0 < c.closes
  · have hne : c.closes ≠ 0 := by omega
    simp [readWebSocketFrame_stages, readFull, hc, hne]
  · cases tail with
    | nil => simp [readWebSocketFrame_stages, readFull, hc]
    | cons t tl =>
      have e1 : readFull ({ c with input := b0 :: t :: tl } : Conn) 2
          = (.ok [b0, t], { c with input := tl }) := by
        simp [readFull, hc]
      have e2 : readFull ({ c with input := b0' :: t :: tl } : Conn) 2
          = (.ok [b0', t], { c with input := tl }) := by
        simp [readFull, hc]
      rw [readWebSocketFrame_stages, readWebSocketFrame_stages, e1, e2]
      simp only [List.getD_cons_zero, List.getD_cons_succ]
      constructor
      · split
        · rfl
        · rw [readPayload_opcode _ _ _ _ _ hop]
      · intro _
        split
        · rfl
        · rw [readPayload_opcode _ _ _ _ _ hop]

/-- Witness of C17: a text frame (`0x81`) and a ping frame without FIN bit (`0x09`)
with the same bytes after the first one. -/
theorem readWebSocketFrame_first_byte_witness :
    (0x81 % 16 = 8 ↔ 0x09 % 16 = 8) ∧
      ((readWebSocketFrame { Conn.fresh [] with input := 0x81 :: [0x02, 104, 105] }).1
          = (readWebSocketFrame { Conn.fresh [] with input := 0x09 :: [0x02, 104, 105] }).1 ∧
        ((Conn.fresh []).closes = 0 →
          (readWebSocketFrame { Conn.fresh [] with input := 0x81 :: [0x02, 104, 105] }).2
            = (readWebSocketFrame { Conn.fresh [] with input := 0x09 :: [0x02, 104, 105] }).2)) :=
  ⟨by decide, readWebSocketFrame_first_byte (Conn.fresh []) 0x81 0x09 [0x02, 104, 105] (by decide)⟩

/-! ## Frames are self-delimiting -/

theorem readFull_ok_split (c c1 : Conn) (n : Nat) (xs : List Nat)
    (h : readFull c n = (.ok xs, c1)) : c.input = xs ++ c1.input ∧ xs.length = n := by
  unfold readFull at h
  split at h
  · cases h
    rename_i h0
    simp [h0]
  · split at h
    · cases h
    · split at h
      · cases h
        rename_i hle
        simp [hle]
      · split at h <;> cases h

theorem readPayload_ok_inv (c c1 : Conn) (opcode payloadLen : Nat) (masked : Bool)
    (p : List Nat) (h : readPayload opcode masked payloadLen c = (.ok p, c1)) :
    ∃ key payload, c.input = key ++ payload ++ c1.input ∧
      key.length = (if masked = true then 4 else 0) ∧
      payload.length = payloadLen ∧ p.length = payloadLen := by
  unfold readPayload at h
  simp only at h
  split at h
  · cases h
  · rename_i maskingKey c3 hk
    split at h
    · cases h
    · rename_i payload c4 hp
      obtain ⟨hp1, hp2⟩ := readFull_ok_split c3 c4 payloadLen payload hp
      split at h
      · cases h
      · cases h
        cases masked with
        | true =>
          simp only [if_true] at hk
          obtain ⟨hk1, hk2⟩ := readFull_ok_split c c3 4 maskingKey hk
          refine ⟨maskingKey, payload, by rw [hk1, hp1, List.append_assoc], by simpa using hk2,
            hp2, ?_⟩
          simp only [if_true, unmask, unmaskFrom_length]
          exact hp2
        | false =>
          simp only [Bool.false_eq_true, if_false] at hk
          cases hk
          exact ⟨[], payload, by simpa using hp1, by simp, hp2, by simpa using hp2⟩

theorem readWebSocketFrame_ok_inv (c c1 : Conn) (p : List Nat)
    (h : readWebSocketFrame c = (.ok p, c1)) :
    ∃ b0 b1 ext key payload, c.input = b0 :: b1 :: (ext ++ key ++ payload ++ c1.input) ∧
      ext.length = (if b1 &&& 0x7F = 126 then 2 else 0) ∧
      key.length = (if b1 &&& 0x80 ≠ 0 then 4 else 0) ∧
      payload.length = p.length := by
  rw [readWebSocketFrame_stages] at h
  split at h
  · cases h
  · rename_i header c2 h1
    obtain ⟨g1, g2⟩ := readFull_ok_split c c2 2 header h1
    obtain ⟨b0, b1, rfl⟩ := List.length_eq_two.mp g2
    simp only [List.getD_cons_zero, List.getD_cons_succ, beq_iff_eq] at h
    split at h
    · cases h
    · rename_i payloadLen c3 hk
      obtain ⟨key, payload, f1, f2, f3, f4⟩ := readPayload_ok_inv c3 c1 _ _ _ p h
      have f2' : key.length = (if b1 &&& 0x80 ≠ 0 then 4 else 0) := by
        rw [f2]
        by_cases hm : b1 &&& 0x80 = 0 <;> simp [hm]
      split at hk
      · rename_i h126
        split at hk
        · cases hk
        · rename_i extended c4 h2
          cases hk
          obtain ⟨e1, e2⟩ := readFull_ok_split c2 c3 2 extended h2
          refine ⟨b0, b1, extended, key, payload, ?_, by rw [if_pos h126]; exact e2, f2',
            by rw [f3, f4]⟩
          rw [g1, e1, f1]
          simp
      · rename_i h126
        cases hk
        refine ⟨b0, b1, [], key, payload, ?_, by rw [if_neg h126]; rfl, f2', by rw [f3, f4]⟩
        rw [g1, f1]
        simp

theorem read_encode (c : Conn) (m rest : List Nat) (hopen : c.closes = 0)
    (hm : m.length ≤ 65535) :
    readWebSocketFrame { c with input := encode m ++ rest }
      = (.ok m, { c with input := rest }) := by
  by_cases h : m.length ≤ 125
  · have hframe : CompleteFrame m.length [] [] m :=
      ⟨by omega, by simp, by rw [if_neg (by omega)]; rfl, by rw [if_neg (by omega)]; rfl,
        by rw [declaredLen, if_neg (by omega)]; omega⟩
    rw [read_complete ({ c with input := encode m ++ rest } : Conn) 0x81 m.length [] [] m rest
      hopen (by simp [encode, h]) hframe]
    simp
    omega
  · have hframe : CompleteFrame 126 [m.length / 256, m.length % 256] [] m := by
      refine ⟨by omega, ?_, rfl, rfl, ?_⟩
      · intro e he
        simp only [List.mem_cons, List.mem_singleton, List.not_mem_nil, or_false] at he
        rcases he with rfl | rfl <;> omega
      · rw [declaredLen]
        simp only [List.getD_cons_zero, List.getD_cons_succ, Nat.reduceMod, if_true]
        omega
    rw [read_complete ({ c with input := encode m ++ rest } : Conn) 0x81 126
      [m.length / 256, m.length % 256] [] m rest hopen (by simp [encode, h]) hframe]
    simp

/-- C18 (self-delimiting frames): a successful `readWebSocketFrame` consumes a prefix
of the stream of exactly 2 + (2 if the 7-bit length is 126) + (4 if the mask bit is
set) + (payload length) bytes and leaves the rest unread; so, on an open connection
whose stream is what `writeWebSocketFrame` writes for `m1` and then for `m2` (each of
at most 65535 bytes), the first call returns `m1` and the second returns `m2`, at the
end of the stream. -/
theorem readWebSocketFrame_self_delimiting (c : Conn) (m1 m2 : List Nat)
    (hopen : c.closes = 0) (h1 : m1.length ≤ 65535) (h2 : m2.length ≤ 65535) :
    (∀ p c1, readWebSocketFrame c = (.ok p, c1) →
      ∃ consumed, c.input = consumed ++ c1.input ∧
        consumed.length = 2 + (if c.input.getD 1 0 &&& 0x7F = 126 then 2 else 0)
          + (if c.input.getD 1 0 &&& 0x80 ≠ 0 then 4 else 0) + p.length) ∧
    (∃ c1,
      readWebSocketFrame
          { c with
            input := (writeWebSocketFrame (writeWebSocketFrame (Conn.fresh []) m1).2 m2).2.output }
        = (.ok m1, c1) ∧
      readWebSocketFrame c1 = (.ok m2, { c with input := [] })) := by
  constructor
  · intro p c1 h
    obtain ⟨b0, b1, ext, key, payload, g1, g2, g3, g4⟩ := readWebSocketFrame_ok_inv c c1 p h
    refine ⟨b0 :: b1 :: (ext ++ key ++ payload), by simp [g1], ?_⟩
    rw [g1]
    simp only [List.getD_cons_zero, List.getD_cons_succ, List.length_cons, List.length_append,
      g2, g3, g4]
    omega
  · have w1 := writeWebSocketFrame_ok (Conn.fresh []) m1 rfl (by simp [Conn.fresh]) h1
    have w2 := writeWebSocketFrame_ok (writeWebSocketFrame (Conn.fresh []) m1).2 m2
      (by rw [w1]; rfl) (by rw [w1]; simp [Conn.fresh]) h2
    have hout : (writeWebSocketFrame (writeWebSocketFrame (Conn.fresh []) m1).2 m2).2.output
        = encode m1 ++ (encode m2 ++ []) := by
      rw [w2, w1]
      simp [Conn.fresh, encode]
    rw [hout]
    refine ⟨{ c with input := encode m2 ++ [] }, read_encode c m1 _ hopen h1, ?_⟩
    exact read_encode c m2 [] hopen h2

/-- Witness of C18: the messages `hi` and `yo` on a fresh connection. -/
theorem readWebSocketFrame_self_delimiting_witness :
    (Conn.fresh [0x81, 0x02, 104, 105, 7]).closes = 0 ∧ [104, 105].length ≤ 65535 ∧
      [121, 111].length ≤ 65535 ∧
      ((∀ p c1, readWebSocketFrame (Conn.fresh [0x81, 0x02, 104, 105, 7]) = (.ok p, c1) →
        ∃ consumed, (Conn.fresh [0x81, 0x02, 104, 105, 7]).input = consumed ++ c1.input ∧
          consumed.length
            = 2 + (if (Conn.fresh [0x81, 0x02, 104, 105, 7]).input.getD 1 0 &&& 0x7F = 126
                then 2 else 0)
              + (if (Conn.fresh [0x81, 0x02, 104, 105, 7]).input.getD 1 0 &&& 0x80 ≠ 0
                then 4 else 0) + p.length) ∧
      (∃ c1,
        readWebSocketFrame
            { Conn.fresh [0x81, 0x02, 104, 105, 7] with
              input := (writeWebSocketFrame (writeWebSocketFrame (Conn.fresh []) [104, 105]).2
                [121, 111]).2.output }
          = (.ok [104, 105], c1) ∧
        readWebSocketFrame c1
          = (.ok [121, 111], { Conn.fresh [0x81, 0x02, 104, 105, 7] with input := [] }))) :=
  ⟨rfl, by decide, by decide,
    readWebSocketFrame_self_delimiting (Conn.fresh [0x81, 0x02, 104, 105, 7]) [104, 105]
      [121, 111] rfl (by decide) (by decide)⟩

/-! ## One turn of the frame loop -/

theorem frameLoop_data (fuel : Nat) (c : Conn) (f : Frame) (rest : List Nat)
    (hopen : c.closes = 0) (hw : c.writeErrs.head? ≠ some true)
    (hin : c.input = f.wire ++ rest) (hf : f.Complete) (hop : f.b0 % 16 ≠ 8)
    (hlen : f.message.length ≤ 65528) :
    frameLoop (fuel + 1) c =
      frameLoop fuel { c with
        input := rest,
        output := c.output ++ encode (f.message ++ str " (echo)"),
        writeErrs := c.writeErrs.tail,
        log := c.log ++ [.received f.message] } := by
  have hr := read_complete c f.b0 f.b1 f.ext f.key f.payload rest hopen
    (by simp [hin, Frame.wire]) hf
  rw [if_neg hop] at hr
  have hm : (f.message ++ str " (echo)").length ≤ 65535 := by
    rw [List.length_append]
    have : (str " (echo)").length = 7 := rfl
    omega
  have hwr := writeWebSocketFrame_ok
    (({ c with input := rest } : Conn).println (.received f.message))
    (f.message ++ str " (echo)") hopen hw hm
  rw [frameLoop, hr]
  simp only [Frame.message] at hwr ⊢
  rw [hwr]
  simp [Conn.println, encode]

theorem frameLoop_too_long (fuel : Nat) (c : Conn) (f : Frame) (rest : List Nat)
    (hopen : c.closes = 0)
    (hin : c.input = f.wire ++ rest) (hf : f.Complete) (hop : f.b0 % 16 ≠ 8)
    (hlen : 65528 < f.message.length) :
    frameLoop (fuel + 1) c =
      some { c with
        input := rest,
        log := c.log ++ [.received f.message,
          .errorWritingFrame (.errorf "message too long")] } := by
  have hr := read_complete c f.b0 f.b1 f.ext f.key f.payload rest hopen
    (by simp [hin, Frame.wire]) hf
  rw [if_neg hop] at hr
  have hm : ¬ (f.message ++ str " (echo)").length ≤ 65535 := by
    rw [List.length_append]
    have : (str " (echo)").length = 7 := rfl
    omega
  have hm2 : ¬ (f.message ++ str " (echo)").length ≤ 125 := by omega
  have hwr : ∀ c2 : Conn, writeWebSocketFrame c2 (f.message ++ str " (echo)")
      = (some (.errorf "message too long"), c2) := by
    intro c2
    simp only [writeWebSocketFrame, if_neg hm, if_neg hm2]
  rw [frameLoop, hr]
  simp only [Frame.message] at hwr ⊢
  rw [hwr]
  simp [Conn.println]

theorem frameLoop_close (fuel : Nat) (c : Conn) (f : Frame) (rest : List Nat)
    (hopen : c.closes = 0)
    (hin : c.input = f.wire ++ rest) (hf : f.Complete) (hop : f.b0 % 16 = 8) :
    frameLoop (fuel + 1) c =
      some { c with input := rest, closes := 1, log := c.log ++ [.connectionClosed] } := by
  have hr := read_complete c f.b0 f.b1 f.ext f.key f.payload rest hopen
    (by simp [hin, Frame.wire]) hf
  rw [if_pos hop] at hr
  rw [frameLoop, hr]
  simp [Conn.println, Err.Error]

theorem wireOf_length (frames : List Frame) : frames.length ≤ (wireOf frames).length := by
  induction frames with
  | nil => simp
  | cons f fs ih =>
    simp only [wireOf, Frame.wire, List.length_cons, List.length_append]
    omega

theorem frameLoop_frames (frames : List Frame) (closeFrame : Frame) (rest : List Nat)
    (fuel : Nat) (c : Conn) (hfuel : frames.length < fuel)
    (hopen : c.closes = 0) (hw : ∀ w ∈ c.writeErrs, w = false)
    (hframes : ∀ f ∈ frames, f.Complete ∧ f.b0 % 16 ≠ 8 ∧ f.message.length ≤ 65528)
    (hclose : closeFrame.Complete ∧ closeFrame.b0 % 16 = 8)
    (hin : c.input = wireOf frames ++ closeFrame.wire ++ rest) :
    frameLoop fuel c =
      some { c with
        input := rest,
        output := c.output ++ repliesTo frames,
        closes := 1,
        writeErrs := c.writeErrs.drop frames.length,
        log := c.log ++ frames.map (fun f => LogLine.received f.message)
          ++ [.connectionClosed] } := by
  induction frames generalizing fuel c with
  | nil =>
    obtain ⟨k, rfl⟩ : ∃ k, fuel = k + 1 := ⟨fuel - 1, by simp at hfuel; omega⟩
    rw [frameLoop_close k c closeFrame rest hopen (by simpa [wireOf] using hin) hclose.1 hclose.2]
    simp [repliesTo]
  | cons f fs ih =>
    obtain ⟨k, rfl⟩ : ∃ k, fuel = k + 1 := ⟨fuel - 1, by simp at hfuel; omega⟩
    obtain ⟨hf1, hf2, hf3⟩ := hframes f (by simp)
    have hhead : c.writeErrs.head? ≠ some true := by
      cases hwe : c.writeErrs with
      | nil => simp
      | cons w ws =>
        have := hw w (by simp [hwe])
        simp [this]
    rw [frameLoop_data k c f (wireOf fs ++ closeFrame.wire ++ rest) hopen hhead
      (by simp [hin, wireOf]) hf1 hf2 hf3]
    rw [ih k
      ({ c with
        input := wireOf fs ++ closeFrame.wire ++ rest,
        output := c.output ++ encode (f.message ++ str " (echo)"),
        writeErrs := c.writeErrs.tail,
        log := c.log ++ [.received f.message] } : Conn)
      (by simpa using hfuel) hopen
      (fun w hmem => hw w (List.mem_of_mem_tail hmem))
      (fun g hg => hframes g (by simp [hg])) rfl]
    simp [repliesTo]

/-- C12 (request/reply pairing): on an open connection whose writes all succeed, after
a successful handshake, if the stream is made of complete frames with opcodes other
than 0x8 and payloads of at most 65528 bytes, then a complete close frame, then any
further bytes, the handler returns having written, after the 101 response, exactly the
encoded echo replies to those frames in their order and nothing more; it has read
nothing after the close frame, and its log shows one reception per frame and then the
closure. -/
theorem handleConn_echo (c : Conn) (block : List Nat) (frames : List Frame)
    (closeFrame : Frame) (rest : List Nat)
    (hopen : c.closes = 0) (hw : ∀ w ∈ c.writeErrs, w = false)
    (hup : (parseHeaders block).get (str "Upgrade") = str "websocket")
    (hkey : (parseHeaders block).get (str "Sec-WebSocket-Key") ≠ [])
    (hframes : ∀ f ∈ frames, f.Complete ∧ f.b0 % 16 ≠ 8 ∧ f.message.length ≤ 65528)
    (hclose : closeFrame.Complete ∧ closeFrame.b0 % 16 = 8)
    (hin : c.input = wireOf frames ++ closeFrame.wire ++ rest) :
    ∃ c1, handleConn c (.ok block) = some c1 ∧
      c1.output = c.output
        ++ response (acceptKey ((parseHeaders block).get (str "Sec-WebSocket-Key")))
        ++ repliesTo frames ∧
      c1.input = rest ∧
      c1.log = c.log ++ [.established]
        ++ frames.map (fun f => LogLine.received f.message) ++ [.connectionClosed] := by
  have hhead : c.writeErrs.head? ≠ some true := by
    cases hwe : c.writeErrs with
    | nil => simp
    | cons w ws =>
      have := hw w (by simp [hwe])
      simp [this]
  have hwr := write_ok c
    (response (acceptKey ((parseHeaders block).get (str "Sec-WebSocket-Key")))) hopen hhead
  have hlen : frames.length < c.input.length + 1 := by
    have := wireOf_length frames
    rw [hin]
    simp only [List.length_append]
    omega
  have hloop := frameLoop_frames frames closeFrame rest (c.input.length + 1)
    (({ c with
        output := c.output ++
          response (acceptKey ((parseHeaders block).get (str "Sec-WebSocket-Key"))),
        writeErrs := c.writeErrs.tail } : Conn).println .established)
    hlen hopen (fun w hmem => hw w (List.mem_of_mem_tail hmem)) hframes hclose hin
  refine ⟨Conn.close { c with
      input := rest,
      output := c.output
        ++ response (acceptKey ((parseHeaders block).get (str "Sec-WebSocket-Key")))
        ++ repliesTo frames,
      closes := 1,
      writeErrs := c.writeErrs.tail.drop frames.length,
      log := c.log ++ [.established]
        ++ frames.map (fun f => LogLine.received f.message) ++ [.connectionClosed] },
    ?_, rfl, rfl, rfl⟩
  simp only [handleConn, handlerBody, hup, bne_self_eq_false, Bool.false_eq_true, if_false,
    beq_iff_eq, if_neg hkey, hwr]
  simp only [Conn.println] at hloop ⊢
  rw [hloop]
  rfl

/-- C19 (reply limit): on an open connection whose next write succeeds and whose
stream starts with a complete frame with an opcode other than 0x8, the frame loop
answers the frame exactly when its payload has at most 65528 bytes.  Then the encoded
echo is written and the loop goes on with the rest of the stream.  With a longer
payload (65529 to 65535 bytes) the loop stops at once: nothing is written, the rest of
the stream is left unread, and the log ends with the `message too long` error. -/
theorem frameLoop_reply_limit (fuel : Nat) (c : Conn) (f : Frame) (rest : List Nat)
    (hopen : c.closes = 0) (hw : c.writeErrs.head? ≠ some true)
    (hin : c.input = f.wire ++ rest) (hf : f.Complete) (hop : f.b0 % 16 ≠ 8) :
    f.message.length ≤ 65535 ∧
    (f.message.length ≤ 65528 →
      frameLoop (fuel + 1) c =
        frameLoop fuel { c with
          input := rest,
          output := c.output ++ encode (f.message ++ str " (echo)"),
          writeErrs := c.writeErrs.tail,
          log := c.log ++ [.received f.message] } ∧
      ∀ c1, frameLoop (fuel + 1) c = some c1 →
        ∃ later, c1.output = c.output ++ encode (f.message ++ str " (echo)") ++ later) ∧
    (65528 < f.message.length →
      frameLoop (fuel + 1) c =
        some { c with
          input := rest,
          log := c.log ++ [.received f.message,
            .errorWritingFrame (.errorf "message too long")] }) := by
  refine ⟨?_, ?_, fun hlen => frameLoop_too_long fuel c f rest hopen hin hf hop hlen⟩
  · obtain ⟨hb1, hextb, hext, hkey, hlen⟩ := hf
    have hmsg : f.message.length = f.payload.length := by
      unfold Frame.message
      split
      · exact unmaskFrom_length _ _ _
      · rfl
    rw [hmsg, hlen, declaredLen]
    split
    · rename_i h126
      rw [if_pos h126] at hext
      obtain ⟨e0, e1, he⟩ := List.length_eq_two.mp hext
      rw [he] at hextb ⊢
      have h0 := hextb e0 (by simp)
      have h1 := hextb e1 (by simp)
      simp only [List.getD_cons_zero, List.getD_cons_succ]
      omega
    · omega
  · intro hlen
    have hstep := frameLoop_data fuel c f rest hopen hw hin hf hop hlen
    refine ⟨hstep, ?_⟩
    intro c1 h1
    rw [hstep] at h1
    obtain ⟨later, hl⟩ := frameLoop_output _ _ _ h1
    exact ⟨later, by simpa using hl⟩

/-- Witness of C12: the frame `hi`, a close frame and one more byte after the sample
request. -/
theorem handleConn_echo_witness :
    (Conn.fresh (wireOf [hiFrame] ++ byeFrame.wire ++ [7])).closes = 0 ∧
      (∀ w ∈ (Conn.fresh (wireOf [hiFrame] ++ byeFrame.wire ++ [7])).writeErrs, w = false) ∧
      (parseHeaders sampleRequest).get (str "Upgrade") = str "websocket" ∧
      (parseHeaders sampleRequest).get (str "Sec-WebSocket-Key") ≠ [] ∧
      (∀ f ∈ [hiFrame], f.Complete ∧ f.b0 % 16 ≠ 8 ∧ f.message.length ≤ 65528) ∧
      (byeFrame.Complete ∧ byeFrame.b0 % 16 = 8) ∧
      ∃ c1, handleConn (Conn.fresh (wireOf [hiFrame] ++ byeFrame.wire ++ [7]))
          (.ok sampleRequest) = some c1 ∧
        c1.output = (Conn.fresh (wireOf [hiFrame] ++ byeFrame.wire ++ [7])).output
          ++ response (acceptKey ((parseHeaders sampleRequest).get (str "Sec-WebSocket-Key")))
          ++ repliesTo [hiFrame] ∧
        c1.input = [7] ∧
        c1.log = (Conn.fresh (wireOf [hiFrame] ++ byeFrame.wire ++ [7])).log ++ [.established]
          ++ [hiFrame].map (fun f => LogLine.received f.message) ++ [.connectionClosed] :=
  ⟨rfl, by decide, by decide!, by decide!, by decide, by decide,
    handleConn_echo (Conn.fresh (wireOf [hiFrame] ++ byeFrame.wire ++ [7])) sampleRequest
      [hiFrame] byeFrame [7] rfl (by decide) (by decide!) (by decide!) (by decide) (by decide)
      rfl⟩

theorem longFrame_complete : longFrame.Complete := by
  refine ⟨by decide, by decide, rfl, rfl, ?_⟩
  show (List.replicate 65529 0).length = declaredLen 126 [255, 249]
  rw [List.length_replicate]
  rfl

theorem longFrame_message : longFrame.message.length = 65529 := by
  show (if 128 ≤ 126 then unmask [] (List.replicate 65529 0)
    else List.replicate 65529 0).length = 65529
  rw [if_neg (by decide), List.length_replicate]

/-- Witness of C19: a frame with a payload of 65529 bytes, followed by the frame `hi`
that is never read. -/
theorem frameLoop_reply_limit_witness :
    (Conn.fresh (longFrame.wire ++ hiFrame.wire)).closes = 0 ∧
      (Conn.fresh (longFrame.wire ++ hiFrame.wire)).writeErrs.head? ≠ some true ∧
      longFrame.Complete ∧ longFrame.b0 % 16 ≠ 8 ∧ 65528 < longFrame.message.length ∧
      frameLoop (0 + 1) (Conn.fresh (longFrame.wire ++ hiFrame.wire)) =
        some { Conn.fresh (longFrame.wire ++ hiFrame.wire) with
          input := hiFrame.wire,
          log := (Conn.fresh (longFrame.wire ++ hiFrame.wire)).log
            ++ [.received longFrame.message,
              .errorWritingFrame (.errorf "message too long")] } :=
  ⟨rfl, by decide, longFrame_complete, by decide, by rw [longFrame_message]; decide,
    (frameLoop_reply_limit 0 (Conn.fresh (longFrame.wire ++ hiFrame.wire)) longFrame hiFrame.wire
      rfl (by decide) rfl longFrame_complete (by decide)).2.2
      (by rw [longFrame_message]; decide)⟩

/-! ## Calls of `Close` -/

theorem readFull_error (c c1 : Conn) (n : Nat) (e : Err)
    (h : readFull c n = (.error e, c1)) : e.isTransport = true := by
  unfold readFull at h
  split at h
  · cases h
  · split at h
    · cases h
      rfl
    · split at h
      · cases h
      · split at h <;> cases h <;> rfl

theorem readPayload_error (c c1 : Conn) (opcode payloadLen : Nat) (masked : Bool) (e : Err)
    (h : readPayload opcode masked payloadLen c = (.error e, c1)) :
    (e = .errorf "connection closed" ∧ c1.closes = c.closes + 1) ∨
      (e.isTransport = true ∧ c1.closes = c.closes) := by
  unfold readPayload at h
  simp only at h
  split at h
  · rename_i err c3 hk
    cases h
    right
    cases masked with
    | true =>
      simp only [if_true] at hk
      exact ⟨readFull_error c c1 4 e hk, (readFull_effect c c1 4 _ hk).2.1⟩
    | false =>
      simp only [Bool.false_eq_true, if_false] at hk
      cases hk
  · rename_i maskingKey c3 hk
    have hc3 : c3.closes = c.closes := by
      cases masked with
      | true =>
        simp only [if_true] at hk
        exact (readFull_effect c c3 4 _ hk).2.1
      | false =>
        simp only [Bool.false_eq_true, if_false] at hk
        cases hk
        rfl
    split at h
    · rename_i err c4 hp
      have h4 := (readFull_effect c3 c4 payloadLen _ hp).2.1
      have ht := readFull_error c3 c4 payloadLen err hp
      cases h
      exact Or.inr ⟨ht, by rw [h4, hc3]⟩
    · rename_i payload c4 hp
      have h4 := (readFull_effect c3 c4 payloadLen _ hp).2.1
      split at h
      · cases h
        exact Or.inl ⟨rfl, by simp [Conn.close, h4, hc3]⟩
      · cases h

theorem readWebSocketFrame_error (c c1 : Conn) (e : Err)
    (h : readWebSocketFrame c = (.error e, c1)) :
    (e = .errorf "connection closed" ∧ c1.closes = c.closes + 1) ∨
      (e.isTransport = true ∧ c1.closes = c.closes) := by
  rw [readWebSocketFrame_stages] at h
  split at h
  · rename_i err c2 h1
    have ht := readFull_error c c2 2 err h1
    have hc := (readFull_effect c c2 2 _ h1).2.1
    cases h
    exact Or.inr ⟨ht, hc⟩
  · rename_i header c2 h1
    have hc2 := (readFull_effect c c2 2 _ h1).2.1
    split at h
    · rename_i err c3 hk
      split at hk
      · split at hk
        · rename_i err2 c4 h2
          have ht := readFull_error c2 c4 2 err2 h2
          have hc := (readFull_effect c2 c4 2 _ h2).2.1
          cases hk
          cases h
          exact Or.inr ⟨ht, by rw [hc, hc2]⟩
        · cases hk
      · cases hk
    · rename_i payloadLen c3 hk
      have hc3 : c3.closes = c.closes := by
        split at hk
        · split at hk
          · cases hk
          · rename_i extended c4 h2
            have hc := (readFull_effect c2 c4 2 _ h2).2.1
            cases hk
            rw [hc, hc2]
        · cases hk
          exact hc2
      rcases readPayload_error c3 c1 _ _ _ e h with ⟨h5, h6⟩ | ⟨h5, h6⟩
      · exact Or.inl ⟨h5, by rw [h6, hc3]⟩
      · exact Or.inr ⟨h5, by rw [h6, hc3]⟩

theorem transport_not_closed (e : Err) (h : e.isTransport = true) :
    (e.Error == "connection closed") = false := by
  cases e with
  | errorf msg => simp [Err.isTransport] at h
  | eof => decide
  | unexpectedEOF => decide
  | netClosed => decide
  | writeFailed => decide

theorem frameLoop_closes (fuel : Nat) (c c1 : Conn) (h : frameLoop fuel c = some c1) :
    (c1.closes = c.closes + 1 ∧ c1.log.getLast? = some .connectionClosed) ∨
      (c1.closes = c.closes ∧
        ∃ e, c1.log.getLast? = some (.errorReadingFrame e) ∧ e.isTransport = true) ∨
      (c1.closes = c.closes ∧ ∃ e, c1.log.getLast? = some (.errorWritingFrame e)) := by
  induction fuel generalizing c with
  | zero => simp [frameLoop] at h
  | succ fuel ih =>
    unfold frameLoop at h
    split at h
    · rename_i err c2 hr
      rcases readWebSocketFrame_error c c2 err hr with ⟨h1, h2⟩ | ⟨h1, h2⟩
      · subst h1
        simp only [Err.Error, beq_self_eq_true, if_true, Option.some.injEq] at h
        subst h
        exact Or.inl ⟨by simpa [Conn.println] using h2, by simp [Conn.println]⟩
      · rw [transport_not_closed err h1] at h
        simp only [Bool.false_eq_true, if_false, Option.some.injEq] at h
        subst h
        exact Or.inr (Or.inl ⟨by simpa [Conn.println] using h2, err,
          by simp [Conn.println], h1⟩)
    · rename_i message c2 hr
      have hc2 := ((readWebSocketFrame_effect c c2 _ hr).2.2.2.2 message rfl).1
      have hwe := (writeWebSocketFrame_effect (c2.println (.received message))
        (message ++ str " (echo)")).2.1
      simp only at h
      split at h
      · rename_i err c3 hw
        rw [hw] at hwe
        simp only [Option.some.injEq] at h
        subst h
        exact Or.inr (Or.inr ⟨by simpa [Conn.println, hc2] using hwe, err,
          by simp [Conn.println]⟩)
      · rename_i c3 hw
        rw [hw] at hwe
        have hc3 : c3.closes = c.closes := by simpa [Conn.println, hc2] using hwe
        rw [← hc3]
        exact ih c3 h

/-- C11 (release of the connection), amended: on an open connection the handler always
returns, and `Close` has then been called at least once and at most twice, the deferred
call being the last one.  It is called exactly once when the first read fails and when
the request is not an upgrade; after the handshake it is called exactly once when the
loop ends on a transport error or on a failed reply, and twice when the loop ends on a
close frame, where the decoder has closed the connection before the deferred call. -/
theorem handleConn_closes (c : Conn) (recv : Except Err (List Nat)) (hopen : c.closes = 0) :
    ∃ c1, handleConn c recv = some c1 ∧
      (1 ≤ c1.closes ∧ c1.closes ≤ 2) ∧
      (∀ e, recv = .error e → c1.closes = 1) ∧
      (∀ block, recv = .ok block →
        ((parseHeaders block).get (str "Upgrade") ≠ str "websocket" → c1.closes = 1) ∧
        ((parseHeaders block).get (str "Upgrade") = str "websocket" →
          (parseHeaders block).get (str "Sec-WebSocket-Key") ≠ [] →
          c.writeErrs.head? ≠ some true →
          (c1.closes = 2 ∧ c1.log.getLast? = some .connectionClosed) ∨
          (c1.closes = 1 ∧
            ∃ e, c1.log.getLast? = some (.errorReadingFrame e) ∧ e.isTransport = true) ∨
          (c1.closes = 1 ∧ ∃ e, c1.log.getLast? = some (.errorWritingFrame e)))) := by
  cases recv with
  | error e =>
    refine ⟨c.close, rfl, by simp [Conn.close, hopen], fun _ _ => by simp [Conn.close, hopen],
      fun block hb => by cases hb⟩
  | ok block =>
    by_cases hup : (parseHeaders block).get (str "Upgrade") = str "websocket"
    · by_cases hkey : (parseHeaders block).get (str "Sec-WebSocket-Key") = []
      · have hcl := (write_effect c badRequest).2.1
        refine ⟨(c.write badRequest).2.close.close, ?_, ?_, (fun e he => by cases he), ?_⟩
        · simp [handleConn, handlerBody, hup, hkey]
        · simp [Conn.close, hcl, hopen]
        · intro b hb
          cases hb
          exact ⟨fun h => absurd hup h, fun _ h => absurd hkey h⟩
      · by_cases hw : c.writeErrs.head? = some true
        · have hwr : c.write (response (acceptKey
              ((parseHeaders block).get (str "Sec-WebSocket-Key"))))
              = (some .writeFailed, { c with writeErrs := c.writeErrs.tail }) := by
            obtain ⟨inp, out, cl, we, lg⟩ := c
            simp only at hopen hw
            subst hopen
            cases we with
            | nil => simp at hw
            | cons w ws =>
              simp only [List.head?_cons, Option.some.injEq] at hw
              subst hw
              simp [Conn.write]
          refine ⟨(({ c with writeErrs := c.writeErrs.tail } : Conn).println
            (.errorWritingResponse .writeFailed)).close.close, ?_, ?_, (fun e he => by cases he), ?_⟩
          · simp only [handleConn, handlerBody, hup, bne_self_eq_false, Bool.false_eq_true,
              if_false, beq_iff_eq, if_neg hkey, hwr]
            rfl
          · simp [Conn.close, Conn.println, hopen]
          · intro b hb
            cases hb
            exact ⟨fun h => absurd hup h, fun _ _ h => absurd hw h⟩
        · have hwr := write_ok c (response (acceptKey
            ((parseHeaders block).get (str "Sec-WebSocket-Key")))) hopen hw
          obtain ⟨c3, hloop⟩ := frameLoop_total
            (({ c with
                output := c.output ++
                  response (acceptKey ((parseHeaders block).get (str "Sec-WebSocket-Key"))),
                writeErrs := c.writeErrs.tail } : Conn).println .established).input.length.succ
            (({ c with
                output := c.output ++
                  response (acceptKey ((parseHeaders block).get (str "Sec-WebSocket-Key"))),
                writeErrs := c.writeErrs.tail } : Conn).println .established)
            (Nat.lt_succ_self _)
          have hcl := frameLoop_closes _ _ _ hloop
          simp only [Conn.println, hopen, Nat.zero_add] at hcl
          have hfinal : (c3.close.closes = 2 ∧ c3.close.log.getLast? = some .connectionClosed) ∨
              (c3.close.closes = 1 ∧
                ∃ e, c3.close.log.getLast? = some (.errorReadingFrame e) ∧
                  e.isTransport = true) ∨
              (c3.close.closes = 1 ∧
                ∃ e, c3.close.log.getLast? = some (.errorWritingFrame e)) := by
            rcases hcl with ⟨h1, h2⟩ | ⟨h1, h2⟩ | ⟨h1, h2⟩
            · exact Or.inl ⟨by simp [Conn.close, h1], h2⟩
            · exact Or.inr (Or.inl ⟨by simp [Conn.close, h1], h2⟩)
            · exact Or.inr (Or.inr ⟨by simp [Conn.close, h1], h2⟩)
          refine ⟨c3.close, ?_, ?_, (fun e he => by cases he), ?_⟩
          · simp only [handleConn, handlerBody, hup, bne_self_eq_false, Bool.false_eq_true,
              if_false, beq_iff_eq, if_neg hkey, hwr]
            rw [hloop]
            rfl
          · rcases hfinal with ⟨h1, _⟩ | ⟨h1, _⟩ | ⟨h1, _⟩ <;> omega
          · intro b hb
            cases hb
            exact ⟨fun h => absurd hup h, fun _ _ _ => hfinal⟩
    · refine ⟨(c.println .notWebSocket).close, ?_, ?_, (fun e he => by cases he), ?_⟩
      · simp [handleConn, handlerBody, hup]
      · simp [Conn.close, Conn.println, hopen]
      · intro b hb
        cases hb
        exact ⟨fun _ => by simp [Conn.close, Conn.println, hopen], fun h => absurd h hup⟩

/-- Witness of C11: the sample request followed by a close frame on a fresh
connection. -/
theorem handleConn_closes_witness :
    (Conn.fresh byeFrame.wire).closes = 0 ∧
      ∃ c1, handleConn (Conn.fresh byeFrame.wire) (.ok sampleRequest) = some c1 ∧
        (1 ≤ c1.closes ∧ c1.closes ≤ 2) ∧
        (∀ e, (.ok sampleRequest : Except Err (List Nat)) = .error e → c1.closes = 1) ∧
        (∀ block, (.ok sampleRequest : Except Err (List Nat)) = .ok block →
          ((parseHeaders block).get (str "Upgrade") ≠ str "websocket" → c1.closes = 1) ∧
          ((parseHeaders block).get (str "Upgrade") = str "websocket" →
            (parseHeaders block).get (str "Sec-WebSocket-Key") ≠ [] →
            (Conn.fresh byeFrame.wire).writeErrs.head? ≠ some true →
            (c1.closes = 2 ∧ c1.log.getLast? = some .connectionClosed) ∨
            (c1.closes = 1 ∧
              ∃ e, c1.log.getLast? = some (.errorReadingFrame e) ∧ e.isTransport = true) ∨
            (c1.closes = 1 ∧ ∃ e, c1.log.getLast? = some (.errorWritingFrame e)))) :=
  ⟨rfl, handleConn_closes (Conn.fresh byeFrame.wire) (.ok sampleRequest) rfl⟩

/-- Counterexample to C11 as stated: `Close` is called twice when the peer sends a
close frame after the handshake, and also on the missing-key path and on the path
where the 101 response cannot be written; it is called once when the stream just
ends. -/
theorem handleConn_closes_twice :
    (handleConn (Conn.fresh byeFrame.wire) (.ok sampleRequest)).map Conn.closes = some 2 ∧
      (handleConn (Conn.fresh []) (.ok keylessRequest)).map Conn.closes = some 2 ∧
      (handleConn { Conn.fresh [] with writeErrs := [true] } (.ok sampleRequest)).map Conn.closes
        = some 2 ∧
      (handleConn (Conn.fresh []) (.ok sampleRequest)).map Conn.closes = some 1 := by
  decide!

/-! ## Header parsing -/

theorem parseHeaders_eq (block : List Nat) :
    parseHeaders block = headersOfLines (split block (str "\r\n")) :=
  rfl

theorem cut_none_of_not_infix (sep s : List Nat) (h : ¬ sep <:+: s) : cut sep s = none := by
  induction s with
  | nil => rfl
  | cons b s ih =>
    have h1 : sep.isPrefixOf (b :: s) = false := by
      cases hp : sep.isPrefixOf (b :: s) with
      | false => rfl
      | true => exact absurd (List.isPrefixOf_iff_prefix.mp hp).isInfix h
    have h2 : ¬ sep <:+: s := fun hs => h (List.infix_cons hs)
    simp [cut, h1, ih h2]

theorem cut_some_eq (sep s a b : List Nat) (h : cut sep s = some (a, b)) :
    s = a ++ sep ++ b := by
  induction s generalizing a b with
  | nil => simp [cut] at h
  | cons x s ih =>
    unfold cut at h
    split at h
    · rename_i hp
      obtain ⟨t, ht⟩ := List.isPrefixOf_iff_prefix.mp hp
      simp only [Option.some.injEq, Prod.mk.injEq] at h
      obtain ⟨rfl, rfl⟩ := h
      rw [← ht]
      simp
    · split at h
      · cases h
      · rename_i before after hc
        simp only [Option.some.injEq, Prod.mk.injEq] at h
        obtain ⟨rfl, rfl⟩ := h
        rw [ih before after hc]
        simp

theorem cut_two_first (x y : Nat) (hxy : x ≠ y) (name value : List Nat)
    (h : ¬ [x, y] <:+: name) :
    cut [x, y] (name ++ [x, y] ++ value) = some (name, value) := by
  induction name with
  | nil => simp [cut, List.isPrefixOf]
  | cons b n ih =>
    have h2 : ¬ [x, y] <:+: n := fun hs => h (List.infix_cons hs)
    have h1 : List.isPrefixOf [x, y] (b :: n ++ [x, y] ++ value) = false := by
      cases n with
      | nil =>
        simp only [List.cons_append, List.nil_append, List.isPrefixOf, Bool.and_true,
          Bool.and_eq_false_imp, beq_iff_eq, beq_eq_false_iff_ne, ne_eq]
        intro _ hyx
        exact hxy hyx.symm
      | cons n0 n1 =>
        cases hp : List.isPrefixOf [x, y] (b :: n0 :: n1 ++ [x, y] ++ value) with
        | false => rfl
        | true =>
          simp only [List.cons_append, List.isPrefixOf, Bool.and_true, Bool.and_eq_true,
            beq_iff_eq] at hp
          obtain ⟨rfl, rfl⟩ := hp
          exact absurd ⟨[], n1, by simp⟩ h
    simp only [List.cons_append] at h1 ⊢
    simp only [cut, h1, ih h2, Bool.false_eq_true, if_false]

theorem headerStep_none (headers : Headers) (line : List Nat)
    (h : ¬ str ": " <:+: line) : headerStep headers line = headers := by
  simp [headerStep, splitN2, cut_none_of_not_infix _ _ h]

theorem headerStep_entry (headers : Headers) (name value : List Nat)
    (h : ¬ str ": " <:+: name) :
    headerStep headers (name ++ str ": " ++ value) = headers.set name value := by
  have hc : cut (str ": ") (name ++ str ": " ++ value) = some (name, value) :=
    cut_two_first 58 32 (by decide) name value h
  simp only [headerStep, splitN2, hc]

theorem headerStep_other (headers : Headers) (name line : List Nat)
    (h : ∀ v, line ≠ name ++ str ": " ++ v) :
    (headerStep headers line).get name = headers.get name := by
  unfold headerStep splitN2
  cases hc : cut (str ": ") line with
  | none => rfl
  | some ab =>
    obtain ⟨a, b⟩ := ab
    have hl := cut_some_eq _ _ _ _ hc
    have hne : ¬ name = a := by
      intro hna
      subst hna
      exact h b hl
    have hbeq : (name == a) = false := by simpa using hne
    simp only [Headers.get, Headers.set, List.lookup, hbeq]

theorem foldl_headerStep_other (headers : Headers) (name : List Nat) (post : List (List Nat))
    (h : ∀ l ∈ post, ∀ v, l ≠ name ++ str ": " ++ v) :
    (post.foldl headerStep headers).get name = headers.get name := by
  induction post generalizing headers with
  | nil => rfl
  | cons l ls ih =>
    rw [List.foldl_cons, ih _ (fun l1 hl1 => h l1 (by simp [hl1])),
      headerStep_other headers name l (h l (by simp))]

/-- C15 (header map): the map is built by running the loop body over the lines of the
request block (split on CR LF), and for every such list of lines: (i) a line without
a colon followed by a space leaves the map as it would be without that line; (ii) and
(iii) for a line `name: value`, where `name` holds no colon-space and `value` is any
byte string (it may hold colon-space and blanks), looking `name` up gives exactly
`value` when no later line starts with the same name followed by colon-space; (iv) a
name that no line carries reads as the empty string. -/
theorem parseHeaders_lines (block : List Nat) :
    parseHeaders block = headersOfLines (split block (str "\r\n")) ∧
    (∀ pre line post, split block (str "\r\n") = pre ++ line :: post →
      ¬ str ": " <:+: line →
      parseHeaders block = headersOfLines (pre ++ post)) ∧
    (∀ pre name value post,
      split block (str "\r\n") = pre ++ (name ++ str ": " ++ value) :: post →
      ¬ str ": " <:+: name →
      (∀ l ∈ post, ∀ v, l ≠ name ++ str ": " ++ v) →
      (parseHeaders block).get name = value) ∧
    (∀ name, (∀ l ∈ split block (str "\r\n"), ∀ v, l ≠ name ++ str ": " ++ v) →
      (parseHeaders block).get name = []) := by
  refine ⟨rfl, ?_, ?_, ?_⟩
  · intro pre line post hs hline
    rw [parseHeaders_eq, hs]
    simp only [headersOfLines, List.foldl_append, List.foldl_cons]
    rw [headerStep_none _ line hline]
  · intro pre name value post hs hname hpost
    rw [parseHeaders_eq, hs]
    simp only [headersOfLines, List.foldl_append, List.foldl_cons]
    rw [foldl_headerStep_other _ name post hpost, headerStep_entry _ name value hname]
    simp [Headers.get, Headers.set, List.lookup]
  · intro name hall
    rw [parseHeaders_eq, headersOfLines, foldl_headerStep_other _ name _ hall]
    rfl

/-- Witness of C15: in `repeatedRequest` the header `A` reads as the value of its last
line and `B` as everything after its first colon and blank. -/
theorem parseHeaders_lines_witness :
    split repeatedRequest (str "\r\n")
        = [str "GET / HTTP/1.1", str "A: x", str "B: b: c ", str "A: y", [], []] ∧
      (parseHeaders repeatedRequest).get (str "A") = str "y" ∧
      (parseHeaders repeatedRequest).get (str "B") = str "b: c " ∧
      (parseHeaders repeatedRequest).get (str "C") = [] :=
  ⟨by decide!,
    (parseHeaders_lines repeatedRequest).2.2.1
      [str "GET / HTTP/1.1", str "A: x", str "B: b: c "] (str "A") (str "y") [[], []]
      (by decide!) (by decide)
      (by
        intro l hl v hv
        have hlen := congrArg List.length hv
        simp only [List.mem_cons, List.mem_singleton, List.not_mem_nil, or_false, or_self] at hl
        subst hl
        have h1 : (str "A").length = 1 := rfl
        simp only [List.length_nil, List.length_append, h1] at hlen
        omega),
    (parseHeaders_lines repeatedRequest).2.2.1
      [str "GET / HTTP/1.1", str "A: x"] (str "B") (str "b: c ") [str "A: y", [], []]
      (by decide!) (by decide)
      (by
        intro l hl v hv
        have hhead := congrArg (fun t => t.head?) hv
        simp only [List.mem_cons, List.mem_singleton, List.not_mem_nil, or_false] at hl
        rcases hl with rfl | rfl | rfl <;> simp [str] at hhead),
    by decide!⟩

theorem splitAux_joinLines (lines : List (List Nat)) (hne : lines ≠ [])
    (hfree : ∀ l ∈ lines, ¬ str "\r\n" <:+: l) (n : Nat) (hn : lines.length ≤ n + 1) :
    splitAux (str "\r\n") n (joinLines lines) = lines := by
  induction lines generalizing n with
  | nil => exact absurd rfl hne
  | cons l ls ih =>
    cases ls with
    | nil =>
      have hc := cut_none_of_not_infix _ _ (hfree l (by simp))
      cases n with
      | zero => rfl
      | succ m => simp [joinLines, splitAux, hc]
    | cons l1 ls =>
      obtain ⟨m, rfl⟩ : ∃ m, n = m + 1 := ⟨n - 1, by simp at hn; omega⟩
      have hc : cut (str "\r\n") (l ++ str "\r\n" ++ joinLines (l1 :: ls))
          = some (l, joinLines (l1 :: ls)) :=
        cut_two_first 13 10 (by decide) l _ (hfree l (by simp))
      have hrec := ih (by simp) (fun x hx => hfree x (by simp [hx])) m
        (by simp at hn ⊢; omega)
      simp only [joinLines, splitAux, hc, hrec]

theorem joinLines_length (lines : List (List Nat)) :
    lines.length ≤ (joinLines lines).length + 1 := by
  induction lines with
  | nil => simp
  | cons l ls ih =>
    cases ls with
    | nil => simp [joinLines]
    | cons l1 ls =>
      have h2 : (str "\r\n").length = 2 := rfl
      simp only [joinLines, List.length_cons, List.length_append, h2] at ih ⊢
      omega

theorem split_joinLines (lines : List (List Nat)) (hne : lines ≠ [])
    (hfree : ∀ l ∈ lines, ¬ str "\r\n" <:+: l) :
    split (joinLines lines) (str "\r\n") = lines := by
  have h := joinLines_length lines
  exact splitAux_joinLines lines hne hfree _ (by omega)

theorem parseHeaders_joinLines (lines : List (List Nat)) (hne : lines ≠ [])
    (hfree : ∀ l ∈ lines, ¬ str "\r\n" <:+: l) :
    parseHeaders (joinLines lines) = headersOfLines lines := by
  rw [parseHeaders_eq, split_joinLines lines hne hfree]

/-- Witness of C13: a five-byte payload under the key `[1, 2, 3, 4]`. -/
theorem unmask_unmask_witness :
    unmask [1, 2, 3, 4] [104, 101, 108, 108, 111] = [105, 103, 111, 104, 110] ∧
      unmask [1, 2, 3, 4] (unmask [1, 2, 3, 4] [104, 101, 108, 108, 111])
        = [104, 101, 108, 108, 111] :=
  ⟨by decide, (unmask_unmask [1, 2, 3, 4] [104, 101, 108, 108, 111]).2.2⟩

/-! ## The upgrade check -/

/-- C16 (case-sensitive upgrade check): unless the parsed map binds the exact name
`Upgrade` to the exact value `websocket`, the handler rejects the request: it writes
nothing, reads nothing, logs the rejection and closes.  So a handshake that is
established has that exact binding.  The requests whose upgrade line is
`upgrade: websocket` or `Upgrade: WebSocket`, with a valid key, are rejected in this
way on every connection. -/
theorem handleConn_upgrade_exact (c : Conn) (block : List Nat) :
    (List.lookup (str "Upgrade") (parseHeaders block) ≠ some (str "websocket") →
      handleConn c (.ok block) =
        some { c with closes := c.closes + 1, log := c.log ++ [LogLine.notWebSocket] }) ∧
    (∀ c1, handleConn c (.ok block) = some c1 → LogLine.established ∈ c1.log →
      LogLine.established ∉ c.log →
      List.lookup (str "Upgrade") (parseHeaders block) = some (str "websocket")) ∧
    handleConn c (.ok lowerNameRequest) =
      some { c with closes := c.closes + 1, log := c.log ++ [LogLine.notWebSocket] } ∧
    handleConn c (.ok mixedValueRequest) =
      some { c with closes := c.closes + 1, log := c.log ++ [LogLine.notWebSocket] } := by
  have reject : ∀ b : List Nat,
      List.lookup (str "Upgrade") (parseHeaders b) ≠ some (str "websocket") →
      handleConn c (.ok b) =
        some { c with closes := c.closes + 1, log := c.log ++ [LogLine.notWebSocket] } := by
    intro b hb
    have hget : (parseHeaders b).get (str "Upgrade") ≠ str "websocket" := by
      unfold Headers.get
      cases hl : List.lookup (str "Upgrade") (parseHeaders b) with
      | none => decide
      | some v =>
        intro hv
        exact hb (by rw [hl]; exact congrArg some hv)
    simp [handleConn, handlerBody, hget, Conn.println, Conn.close]
  refine ⟨reject block, ?_, reject lowerNameRequest (by decide!),
    reject mixedValueRequest (by decide!)⟩
  intro c1 h hin hnot
  by_contra hne
  rw [reject block hne] at h
  simp only [Option.some.injEq] at h
  subst h
  simp only [List.mem_append, List.mem_singleton] at hin
  rcases hin with hin | hin
  · exact hnot hin
  · cases hin

/-- Witness of C16: the two requests on a fresh connection that holds a frame. -/
theorem handleConn_upgrade_exact_witness :
    List.lookup (str "Upgrade") (parseHeaders lowerNameRequest) = none ∧
      List.lookup (str "upgrade") (parseHeaders lowerNameRequest) = some (str "websocket") ∧
      List.lookup (str "Upgrade") (parseHeaders mixedValueRequest) = some (str "WebSocket") ∧
      handleConn (Conn.fresh hiFrame.wire) (.ok lowerNameRequest) =
        some { Conn.fresh hiFrame.wire with
          closes := (Conn.fresh hiFrame.wire).closes + 1,
          log := (Conn.fresh hiFrame.wire).log ++ [LogLine.notWebSocket] } ∧
      handleConn (Conn.fresh hiFrame.wire) (.ok mixedValueRequest) =
        some { Conn.fresh hiFrame.wire with
          closes := (Conn.fresh hiFrame.wire).closes + 1,
          log := (Conn.fresh hiFrame.wire).log ++ [LogLine.notWebSocket] } :=
  ⟨by decide!, by decide!, by decide!,
    (handleConn_upgrade_exact (Conn.fresh hiFrame.wire) lowerNameRequest).2.2.1,
    (handleConn_upgrade_exact (Conn.fresh hiFrame.wire) lowerNameRequest).2.2.2⟩

end WebSocket
